import Mathlib

/-!
Shallow embedding of the proglang tree-walking interpreter
(lexer tokens, recursive-descent parsing, AST, runtime values,
environments, evaluation) together with theorems checking the
specification's claims against it.

Modelling conventions:
* The token stream is a `List Token`; the parser's mutable
  `currentTokenIndex` becomes an explicit index threaded through every
  parsing function.  Thrown host errors become `Except.error (.thrown msg)`;
  recursion is bounded by an explicit fuel argument whose exhaustion is the
  distinguished (uncatchable) `Err.outOfFuel`, so that the `try/catch` of
  the speculative variable-declaration parse never confuses fuel exhaustion
  with a real parse error.
* The two recursion cycles of the parser (the expression grammar and the
  statement grammar) and the evaluator's recursion are each written as one
  fuel-indexed function over a small task type, with one task per source
  method; per-method wrapper functions restore the source's names and
  signatures.  This keeps every definition kernel-computable.
* JavaScript doubles are modelled by the exact rational type `JSNumber`
  (canonical numerator/denominator, denominator 0 encoding the host's
  non-finite results).  This model is exact on the integer-valued
  arithmetic the theorems evaluate; the relevant structural facts —
  in particular that division by zero is total and never an
  interpreter-level error — are preserved.
* JavaScript `Map` insertion-order semantics are modelled by association
  lists where setting an existing key updates it in place and a fresh key
  is appended.
* The interpreter's `async`/`Promise` plumbing is sequentialised, matching
  the specification's concurrency model (a host call suspends and resumes
  with its value before evaluation continues; no two evaluation chains
  interleave).
-/

namespace ProgLang

/-- Token kinds produced by the lexer (src/src/lexer.ts, `TokenType`). -/
inductive TokenType where
  | IDENTIFIER
  | NUMBER
  | STRING
  | KEYWORD
  | PLUS
  | MINUS
  | DOT
  | LPAREN
  | RPAREN
  | LBRACE
  | RBRACE
  | SEMICOLON
  | COMMA
  | ASSIGN
  | STAR
  | SLASH
  | PERCENT
  | LBRACKET
  | RBRACKET
deriving DecidableEq, Repr

/-- Keywords recognised by the lexer (src/src/lexer.ts, `keywords`). -/
inductive Keyword where
  | kIf
  | kElse
  | kWhile
  | kFor
  | kReturn
  | kTrue
  | kFalse
  | kClass
  | kImport
  | kNew
deriving DecidableEq, Repr

/-- A lexical token (src/src/lexer.ts, `class Token`). -/
structure Token where
  type : TokenType
  lexeme : String
  keyword : Option Keyword := none
deriving DecidableEq, Repr

/-- A declared type reference: base name token plus array-dimension count
(src/unnamed/part_000, `TypeDefinition`). -/
structure TypeDefinition where
  base : Token
  dim : Nat
deriving DecidableEq, Repr

/-- Access modifiers for method declarations (src/unnamed/part_000,
`accessModifiers`). -/
inductive AccessModifier where
  | publicM
  | privateM
  | protectedM
  | packagePrivate
deriving DecidableEq, Repr

/-- The five binary operators (src/src/Expression.ts, `BinaryOperator`). -/
inductive BinaryOperator where
  | PLUS
  | MINUS
  | STAR
  | SLASH
  | PERCENT
deriving DecidableEq, Repr

/-! ### Exact-rational model of JavaScript numbers -/

/-- Fuel-indexed Euclid: `gcdFuel (a+1) a b` computes `gcd a b` (the fuel
bound suffices because the first argument strictly decreases after the
first step).  Written structurally so that it computes inside the
kernel. -/
def gcdFuel : Nat → Nat → Nat → Nat
  | 0, _, b => b
  | _f + 1, 0, b => b
  | f + 1, a + 1, b => gcdFuel f (b % (a + 1)) (a + 1)

/-- Greatest common divisor via `gcdFuel`. -/
def natGcd (a b : Nat) : Nat := gcdFuel (a + 1) a b

/-- Model of a JavaScript number (a binary64 double): an exact rational in
lowest terms.  `den = 0` is the collapsed marker for the host's non-finite
results (Infinity, -Infinity, NaN), which the interpreted language never
inspects. -/
structure JSNumber where
  num : Int
  den : Nat
deriving DecidableEq, Repr

/-- Normalised constructor for `JSNumber` from a signed fraction.  A zero
denominator yields the non-finite marker (keeping the sign of the
numerator, mirroring Infinity / -Infinity / NaN). -/
def mkNum (n d : Int) : JSNumber :=
  if d = 0 then
    ⟨if 0 < n then 1 else if n < 0 then -1 else 0, 0⟩
  else
    let na := n.natAbs
    let da := d.natAbs
    let g := natGcd na da
    if (n < 0) = (d < 0) then ⟨(na / g : Nat), da / g⟩
    else ⟨-((na / g : Nat) : Int), da / g⟩

/-- Integer-valued JavaScript number. -/
def jsInt (n : Int) : JSNumber := ⟨n, 1⟩

/-- Addition of JavaScript numbers (exact; non-finite operands collapse to
the non-finite marker). -/
def jsAdd (a b : JSNumber) : JSNumber :=
  if a.den = 0 ∨ b.den = 0 then ⟨0, 0⟩
  else mkNum (a.num * b.den + b.num * a.den) (a.den * b.den)

/-- Subtraction of JavaScript numbers. -/
def jsSub (a b : JSNumber) : JSNumber :=
  if a.den = 0 ∨ b.den = 0 then ⟨0, 0⟩
  else mkNum (a.num * b.den - b.num * a.den) (a.den * b.den)

/-- Multiplication of JavaScript numbers. -/
def jsMul (a b : JSNumber) : JSNumber :=
  if a.den = 0 ∨ b.den = 0 then ⟨0, 0⟩
  else mkNum (a.num * b.num) (a.den * b.den)

/-- Division of JavaScript numbers.  Total: dividing by zero produces the
non-finite marker (the host produces Infinity, -Infinity or NaN); in both
the host and the model the interpreter raises no error. -/
def jsDiv (a b : JSNumber) : JSNumber :=
  if a.den = 0 ∨ b.den = 0 then ⟨0, 0⟩
  else mkNum (a.num * b.den) ((a.den : Int) * b.num)

/-- Remainder of JavaScript numbers, following the host `%`:
`a % b = a - b * truncate(a / b)` (sign of the dividend), with a zero
divisor producing the non-finite marker (host NaN). -/
def jsMod (a b : JSNumber) : JSNumber :=
  if a.den = 0 ∨ b.den = 0 ∨ b.num = 0 then ⟨0, 0⟩
  else
    let t := Int.tdiv (a.num * b.den) ((a.den : Int) * b.num)
    mkNum (a.num * b.den - b.num * t * a.den) ((a.den : Int) * b.den)

/-- Modelled from the host: `Number.prototype.toString`.  Exact for
integer-valued numbers (the only case the claims' theorems evaluate); other
values are printed as a fraction where the host would print a decimal
expansion. -/
def jsNumToString (q : JSNumber) : String :=
  if q.den = 0 then "NaN"
  else if q.den = 1 then toString q.num
  else toString q.num ++ "/" ++ toString q.den

/-! ### AST -/

/-- Literal payloads.  The source stores a runtime `Value` inside
`LiteralExpression`; the parser only ever builds `StringValue` and
`NumberValue` literals (src/unnamed/part_000, `parseLiteralExpression`),
which is what this type records. -/
inductive Literal where
  | strL (s : String)
  | numL (q : JSNumber)
deriving DecidableEq, Repr

mutual
/-- Expression AST (src/src/Expression.ts). -/
inductive Expression where
  | identifierE (identifier : Token)
  | assignmentE (left right : Expression)
  | binaryE (left right : Expression) (operator : BinaryOperator)
  | dotAccessE (identifier : Token) (parentExpr : Expression)
  | methodCallE (method : Expression) (args : List Expression)
  | literalE (lit : Literal)

/-- Statement AST (src/unnamed/part_000, Statement module).  The synthetic
`ExecuteMainStatement` is never produced by the parser and is modelled by
the standalone `execMain` function below. -/
inductive Statement where
  | importS (path : List String)
  | classDeclS (name : Token) (methods : List MethodDeclaration)
  | exprS (expression : Expression)
  | varDeclS (type : TypeDefinition) (name : Token) (value : Option Expression)

/-- A parsed method signature and body (src/unnamed/part_000,
`MethodDeclaration`). -/
inductive MethodDeclaration where
  | mk (accessModifier : AccessModifier) (isStatic : Bool)
       (returnType : TypeDefinition) (name : Token)
       (parameters : List (TypeDefinition × Token)) (body : List Statement)
end

/-- Interpreter-level errors.  `thrown msg` models a JavaScript
`throw new Error(msg)` (or a host `TypeError` crash); `outOfFuel` is the
model's own bound on recursion depth and corresponds to no source
behaviour. -/
inductive Err where
  | thrown (msg : String)
  | outOfFuel
deriving DecidableEq, Repr

/-! ### Parser helpers -/

/-- Digit value of a character (used by the modelled host `parseFloat`). -/
def digitVal (c : Char) : Nat := c.toNat - '0'.toNat

/-- Value of a digit string read in base 10. -/
def digitsToNat (l : List Char) : Nat :=
  l.foldl (fun acc c => 10 * acc + digitVal c) 0

/-- Modelled from the host: `parseFloat`, restricted to the decimal number
lexemes the lexer produces (digits optionally followed by `.` and more
digits, e.g. "2." for the literal 2). -/
def parseFloatNum (s : String) : JSNumber :=
  let cs := s.toList
  let intPart := cs.takeWhile (fun c => c ≠ '.')
  let rest := cs.dropWhile (fun c => c ≠ '.')
  let fracPart := rest.drop 1
  mkNum (digitsToNat intPart * 10 ^ fracPart.length + digitsToNat fracPart)
    (10 ^ fracPart.length)

/-- Printable name of a token type, for `expect`'s error message. -/
def tokenTypeName : TokenType → String
  | .IDENTIFIER => "IDENTIFIER"
  | .NUMBER => "NUMBER"
  | .STRING => "STRING"
  | .KEYWORD => "KEYWORD"
  | .PLUS => "PLUS"
  | .MINUS => "MINUS"
  | .DOT => "DOT"
  | .LPAREN => "LPAREN"
  | .RPAREN => "RPAREN"
  | .LBRACE => "LBRACE"
  | .RBRACE => "RBRACE"
  | .SEMICOLON => "SEMICOLON"
  | .COMMA => "COMMA"
  | .ASSIGN => "ASSIGN"
  | .STAR => "STAR"
  | .SLASH => "SLASH"
  | .PERCENT => "PERCENT"
  | .LBRACKET => "LBRACKET"
  | .RBRACKET => "RBRACKET"

/-- Cursor-advancing token check (src/unnamed/part_000, `Parser.expect`):
on a matching token kind it returns the token and advances the cursor,
otherwise it throws.  Reading past the end of the token list is the host
crash of `this.tokens[this.currentTokenIndex].type` on `undefined`. -/
def expect (toks : List Token) (i : Nat) (types : List TokenType) :
    Except Err (Token × Nat) :=
  match toks[i]? with
  | none => .error (.thrown "TypeError: cannot read the type of an out-of-range token")
  | some t =>
    if t.type ∈ types then .ok (t, i + 1)
    else
      .error (.thrown ("Expected " ++ String.intercalate "," (types.map tokenTypeName)
        ++ ", got " ++ tokenTypeName t.type ++ ", lexeme: " ++ t.lexeme))

/-- Non-advancing lookahead (src/unnamed/part_000, `Parser.isNext`); throws
"Unexpected end of file" when the cursor is at or past the end. -/
def isNext (toks : List Token) (i : Nat) (ty : TokenType) : Except Err Bool :=
  if i ≥ toks.length then .error (.thrown "Unexpected end of file")
  else
    match toks[i]? with
    | some t => .ok (decide (t.type = ty))
    | none => .error (.thrown "Unexpected end of file")

/-- Access-modifier keyword test (src/unnamed/part_000,
`isAccessModifier`). -/
def isAccessModifierStr (s : String) : Bool :=
  s = "public" || s = "private" || s = "protected" || s = "package-private"

/-- Name-to-modifier conversion for the parsed modifier lexeme. -/
def toAccessModifier (s : String) : AccessModifier :=
  if s = "public" then .publicM
  else if s = "private" then .privateM
  else if s = "protected" then .protectedM
  else .packagePrivate

/-- Cast of an operator token's type to a `BinaryOperator`
(src/unnamed/part_000, `operator.type as BinaryOperator`); the default
branch is unreachable because `expect` has restricted the token kind. -/
def toBinaryOperator : TokenType → BinaryOperator
  | .PLUS => .PLUS
  | .MINUS => .MINUS
  | .STAR => .STAR
  | .SLASH => .SLASH
  | .PERCENT => .PERCENT
  | _ => .PLUS

/-! ### Standalone parser loops (no cycle with the rest of the grammar) -/

/-- The `while` loop of `parseImportStatement` (src/unnamed/part_000,
lines 82-88): as long as the cursor is in range, read an
IDENTIFIER-or-STAR segment, then continue exactly when a `.` follows — the
loop does not stop at a `*` segment. -/
def importLoop : Nat → List Token → Nat → Except Err (List String × Nat)
  | 0, _, _ => .error .outOfFuel
  | fuel + 1, toks, i =>
    if i < toks.length then do
      let (part, i1) ← expect toks i [.IDENTIFIER, .STAR]
      let hasDot ← isNext toks i1 .DOT
      if hasDot then do
        let (rest, i2) ← importLoop fuel toks (i1 + 1)
        pure (part.lexeme :: rest, i2)
      else pure ([part.lexeme], i1)
    else pure ([], i)

/-- The bracket-counting loop of `parseType`. -/
def bracketLoop : Nat → List Token → Nat → Token → Nat →
    Except Err (TypeDefinition × Nat)
  | 0, _, _, _, _ => .error .outOfFuel
  | fuel + 1, toks, i, base, dim => do
    let b ← isNext toks i .LBRACKET
    if b then do
      let (_, i1) ← expect toks (i + 1) [.RBRACKET]
      bracketLoop fuel toks i1 base (dim + 1)
    else pure (⟨base, dim⟩, i)

/-- Type production (src/unnamed/part_000, `Parser.parseType`): base
identifier plus bracket pairs counting the array dimension. -/
def parseType (fuel : Nat) (toks : List Token) (i : Nat) :
    Except Err (TypeDefinition × Nat) := do
  let (base, i1) ← expect toks i [.IDENTIFIER]
  bracketLoop fuel toks i1 base 0

/-- The parameter-collection loop of `parseParameterList`
(src/unnamed/part_000, lines 269-281).  As in the source, reaching a `)`
in the loop guard leaves it unconsumed (only the `break` after a parameter
consumes it), so an empty parameter list does not consume the `)`. -/
def paramLoop : Nat → List Token → Nat →
    Except Err (List (TypeDefinition × Token) × Nat)
  | 0, _, _ => .error .outOfFuel
  | fuel + 1, toks, i => do
    let b ← isNext toks i .RPAREN
    if b then pure ([], i)
    else do
      let (type, i1) ← parseType fuel toks i
      let (name, i2) ← expect toks i1 [.IDENTIFIER]
      let bc ← isNext toks i2 .COMMA
      if bc then do
        let (rest, i3) ← paramLoop fuel toks (i2 + 1)
        pure ((type, name) :: rest, i3)
      else do
        let br ← isNext toks i2 .RPAREN
        if br then pure ([(type, name)], i2 + 1)
        else .error (.thrown "Unexpected token")

/-- Parameter list (src/unnamed/part_000, `Parser.parseParameterList`). -/
def parseParameterList (fuel : Nat) (toks : List Token) (i : Nat) :
    Except Err (List (TypeDefinition × Token) × Nat) := do
  let (_, i1) ← expect toks i [.LPAREN]
  paramLoop fuel toks i1

/-- Literal production (src/unnamed/part_000,
`Parser.parseLiteralExpression`); not recursive, so it needs no fuel. -/
def parseLiteralExpression (toks : List Token) (i : Nat) :
    Except Err (Expression × Nat) := do
  let bs ← isNext toks i .STRING
  if bs then do
    let (t, i1) ← expect toks i [.STRING]
    pure (.literalE (.strL t.lexeme), i1)
  else do
    let bn ← isNext toks i .NUMBER
    if bn then do
      let (t, i1) ← expect toks i [.NUMBER]
      pure (.literalE (.numL (parseFloatNum t.lexeme)), i1)
    else .error (.thrown "Was not able to build literal")

/-! ### The expression grammar

The mutually recursive expression-parsing methods form one recursion
cycle; they are written as a single fuel-indexed function `exprF` over the
task type `ETask` (one task per source method), with wrappers restoring
the source names.  Each source method call becomes a call with one unit
of fuel consumed. -/

/-- Parsing tasks of the expression grammar, one per source method (plus
one per source `while` loop, whose state is the loop's accumulated
expression). -/
inductive ETask where
  | exprT (i : Nat)
  | termT (i : Nat)
  | termLoopT (i : Nat) (e : Expression)
  | factorT (i : Nat)
  | factorLoopT (i : Nat) (e : Expression)
  | assignT (i : Nat)
  | endpointT (i : Nat)
  | identStackT (i : Nat)
  | callLoopT (i : Nat) (e : Expression)
  | newT (i : Nat)
  | argListT (i : Nat)
  | dotAccessT (i : Nat) (e : Expression)

/-- Results of expression-grammar tasks: a single expression or an
argument list, with the final cursor. -/
inductive ERes where
  | one (e : Expression) (i : Nat)
  | many (es : List Expression) (i : Nat)

/-- Projection of an expression-task result. -/
def asOne : Except Err ERes → Except Err (Expression × Nat)
  | .ok (.one e i) => .ok (e, i)
  | .ok (.many _ _) => .error (.thrown "model: unexpected parse result variant")
  | .error e => .error e

/-- Projection of an argument-list-task result. -/
def asMany : Except Err ERes → Except Err (List Expression × Nat)
  | .ok (.many es i) => .ok (es, i)
  | .ok (.one _ _) => .error (.thrown "model: unexpected parse result variant")
  | .error e => .error e

/-- The expression grammar (src/unnamed/part_000, `parseExpression`,
`parseTerm`, `parseFactor`, `parseAssignmentExpression`,
`parseExpressionEndpoint`, `parseIdentifierStack`, `parseNewExpression`,
`parseArgumentList`, `parseDotAccessExpression`, and the three `while`
loops of `parseTerm`/`parseFactor`/`parseIdentifierStack`). -/
def exprF (toks : List Token) : Nat → ETask → Except Err ERes
  | 0, _ => .error .outOfFuel
  | fuel + 1, .exprT i => exprF toks fuel (.termT i)
  | fuel + 1, .termT i => do
    let (e, i1) ← asOne (exprF toks fuel (.factorT i))
    exprF toks fuel (.termLoopT i1 e)
  | fuel + 1, .termLoopT i expr => do
    let bp ← isNext toks i .PLUS
    if bp then do
      let (op, i1) ← expect toks i [.PLUS, .MINUS]
      let (right, i2) ← asOne (exprF toks fuel (.factorT i1))
      exprF toks fuel (.termLoopT i2 (.binaryE expr right (toBinaryOperator op.type)))
    else do
      let bm ← isNext toks i .MINUS
      if bm then do
        let (op, i1) ← expect toks i [.PLUS, .MINUS]
        let (right, i2) ← asOne (exprF toks fuel (.factorT i1))
        exprF toks fuel (.termLoopT i2 (.binaryE expr right (toBinaryOperator op.type)))
      else pure (.one expr i)
  | fuel + 1, .factorT i => do
    let (e, i1) ← asOne (exprF toks fuel (.endpointT i))
    exprF toks fuel (.factorLoopT i1 e)
  | fuel + 1, .factorLoopT i expr => do
    let b1 ← isNext toks i .STAR
    if b1 then do
      let (op, i1) ← expect toks i [.STAR, .SLASH, .PERCENT]
      let (right, i2) ← asOne (exprF toks fuel (.endpointT i1))
      exprF toks fuel (.factorLoopT i2 (.binaryE expr right (toBinaryOperator op.type)))
    else do
      let b2 ← isNext toks i .SLASH
      if b2 then do
        let (op, i1) ← expect toks i [.STAR, .SLASH, .PERCENT]
        let (right, i2) ← asOne (exprF toks fuel (.endpointT i1))
        exprF toks fuel (.factorLoopT i2 (.binaryE expr right (toBinaryOperator op.type)))
      else do
        let b3 ← isNext toks i .PERCENT
        if b3 then do
          let (op, i1) ← expect toks i [.STAR, .SLASH, .PERCENT]
          let (right, i2) ← asOne (exprF toks fuel (.endpointT i1))
          exprF toks fuel (.factorLoopT i2 (.binaryE expr right (toBinaryOperator op.type)))
        else pure (.one expr i)
  | fuel + 1, .assignT i => do
    let (left, i1) ← asOne (exprF toks fuel (.identStackT i))
    let b ← isNext toks i1 .ASSIGN
    if b then do
      let (right, i2) ← asOne (exprF toks fuel (.exprT (i1 + 1)))
      pure (.one (.assignmentE left right) i2)
    else pure (.one left i1)
  | fuel + 1, .endpointT i => do
    let b1 ← isNext toks i .IDENTIFIER
    if b1 then exprF toks fuel (.assignT i)
    else do
      let b2 ← isNext toks i .STRING
      if b2 then (parseLiteralExpression toks i).map (fun r => .one r.1 r.2)
      else do
        let b3 ← isNext toks i .NUMBER
        if b3 then (parseLiteralExpression toks i).map (fun r => .one r.1 r.2)
        else do
          let b4 ← isNext toks i .KEYWORD
          if b4 then
            match toks[i]? with
            | some t =>
              if t.keyword = some .kNew then exprF toks fuel (.newT i)
              else .error (.thrown "Was unable to build expression")
            | none => .error (.thrown "Was unable to build expression")
          else .error (.thrown "Was unable to build expression")
  | fuel + 1, .identStackT i => do
    let (identifier, i1) ← expect toks i [.IDENTIFIER]
    let bd ← isNext toks i1 .DOT
    if bd then do
      let (e1, i2) ← asOne (exprF toks fuel (.dotAccessT i1 (.identifierE identifier)))
      exprF toks fuel (.callLoopT i2 e1)
    else exprF toks fuel (.callLoopT i1 (.identifierE identifier))
  | fuel + 1, .callLoopT i expr => do
    let b ← isNext toks i .LPAREN
    if b then do
      let (_, i1) ← expect toks i [.LPAREN]
      let br ← isNext toks i1 .RPAREN
      if br then do
        let (_, i3) ← expect toks i1 [.RPAREN]
        exprF toks fuel (.callLoopT i3 (.methodCallE expr []))
      else do
        let (args, i2) ← asMany (exprF toks fuel (.argListT i1))
        let (_, i3) ← expect toks i2 [.RPAREN]
        exprF toks fuel (.callLoopT i3 (.methodCallE expr args))
    else pure (.one expr i)
  | fuel + 1, .newT i => exprF toks fuel (.identStackT (i + 1))
  | fuel + 1, .argListT i => do
    let (e, i1) ← asOne (exprF toks fuel (.exprT i))
    let bc ← isNext toks i1 .COMMA
    if bc then do
      let (rest, i2) ← asMany (exprF toks fuel (.argListT (i1 + 1)))
      pure (.many (e :: rest) i2)
    else do
      let br ← isNext toks i1 .RPAREN
      if br then pure (.many [e] i1)
      else do
        let (rest, i2) ← asMany (exprF toks fuel (.argListT i1))
        pure (.many (e :: rest) i2)
  | fuel + 1, .dotAccessT i parentE => do
    let (_, i1) ← expect toks i [.DOT]
    let (identifier, i2) ← expect toks i1 [.IDENTIFIER]
    let b ← isNext toks i2 .DOT
    if b then exprF toks fuel (.dotAccessT i2 (.dotAccessE identifier parentE))
    else pure (.one (.dotAccessE identifier parentE) i2)

/-- Expression entry point (src/unnamed/part_000,
`Parser.parseExpression`). -/
def parseExpression (fuel : Nat) (toks : List Token) (i : Nat) :
    Except Err (Expression × Nat) :=
  asOne (exprF toks fuel (.exprT i))

/-- Additive level (src/unnamed/part_000, `Parser.parseTerm`). -/
def parseTerm (fuel : Nat) (toks : List Token) (i : Nat) :
    Except Err (Expression × Nat) :=
  asOne (exprF toks fuel (.termT i))

/-- Multiplicative level (src/unnamed/part_000, `Parser.parseFactor`). -/
def parseFactor (fuel : Nat) (toks : List Token) (i : Nat) :
    Except Err (Expression × Nat) :=
  asOne (exprF toks fuel (.factorT i))

/-- Assignment production (src/unnamed/part_000,
`Parser.parseAssignmentExpression`). -/
def parseAssignmentExpression (fuel : Nat) (toks : List Token) (i : Nat) :
    Except Err (Expression × Nat) :=
  asOne (exprF toks fuel (.assignT i))

/-- Endpoint alternatives (src/unnamed/part_000,
`Parser.parseExpressionEndpoint`). -/
def parseExpressionEndpoint (fuel : Nat) (toks : List Token) (i : Nat) :
    Except Err (Expression × Nat) :=
  asOne (exprF toks fuel (.endpointT i))

/-- Identifier-led chain (src/unnamed/part_000,
`Parser.parseIdentifierStack`). -/
def parseIdentifierStack (fuel : Nat) (toks : List Token) (i : Nat) :
    Except Err (Expression × Nat) :=
  asOne (exprF toks fuel (.identStackT i))

/-- Object construction (src/unnamed/part_000,
`Parser.parseNewExpression`). -/
def parseNewExpression (fuel : Nat) (toks : List Token) (i : Nat) :
    Except Err (Expression × Nat) :=
  asOne (exprF toks fuel (.newT i))

/-- Call argument list (src/unnamed/part_000, `Parser.parseArgumentList`):
the `while (true)` loop parses an expression, skips over a following `,`,
stops on `)`, and otherwise simply iterates again with no separator
required. -/
def parseArgumentList (fuel : Nat) (toks : List Token) (i : Nat) :
    Except Err (List Expression × Nat) :=
  asMany (exprF toks fuel (.argListT i))

/-- Dotted access chain (src/unnamed/part_000,
`Parser.parseDotAccessExpression`). -/
def parseDotAccessExpression (fuel : Nat) (toks : List Token) (i : Nat)
    (parentE : Expression) : Except Err (Expression × Nat) :=
  asOne (exprF toks fuel (.dotAccessT i parentE))

/-! ### The statement grammar -/

/-- Parsing tasks of the statement grammar, one per source method (plus
the method-collection and statement-collection loops). -/
inductive STask where
  | rootT (i : Nat)
  | stmtT (i : Nat)
  | tryVarT (i : Nat)
  | varCoreT (i : Nat)
  | importT (i : Nat)
  | classT (i : Nat)
  | classBodyT (i : Nat)
  | exprStmtT (i : Nat)
  | methodT (i : Nat)
  | methodBodyT (i : Nat)

/-- Results of statement-grammar tasks. -/
inductive SRes where
  | stmtR (s : Statement) (i : Nat)
  | stmtsR (l : List Statement) (i : Nat)
  | optR (r : Option (Statement × Nat))
  | methodR (m : MethodDeclaration) (i : Nat)
  | methodsR (l : List MethodDeclaration) (i : Nat)

/-- Projection of a single-statement task result. -/
def asStmt : Except Err SRes → Except Err (Statement × Nat)
  | .ok (.stmtR s i) => .ok (s, i)
  | .ok _ => .error (.thrown "model: unexpected parse result variant")
  | .error e => .error e

/-- Projection of a statement-list task result. -/
def asStmts : Except Err SRes → Except Err (List Statement × Nat)
  | .ok (.stmtsR l i) => .ok (l, i)
  | .ok _ => .error (.thrown "model: unexpected parse result variant")
  | .error e => .error e

/-- Projection of the speculative-attempt result. -/
def asOpt : Except Err SRes → Except Err (Option (Statement × Nat))
  | .ok (.optR r) => .ok r
  | .ok _ => .error (.thrown "model: unexpected parse result variant")
  | .error e => .error e

/-- Projection of a method-declaration task result. -/
def asMethod : Except Err SRes → Except Err (MethodDeclaration × Nat)
  | .ok (.methodR m i) => .ok (m, i)
  | .ok _ => .error (.thrown "model: unexpected parse result variant")
  | .error e => .error e

/-- Projection of a method-list task result. -/
def asMethods : Except Err SRes → Except Err (List MethodDeclaration × Nat)
  | .ok (.methodsR l i) => .ok (l, i)
  | .ok _ => .error (.thrown "model: unexpected parse result variant")
  | .error e => .error e

/-- The statement grammar (src/unnamed/part_000, `parseRootLevel`,
`parseStatement`, `tryParseVariableDeclaration`, `parseImportStatement`,
`parseClassDeclaration`, `parseExpressionStatement`,
`parseMethodDeclaration` and the class-body/method-body loops).
The `tryVarT` task is the speculative attempt: it runs the
variable-declaration production (`varCoreT`) and catches any thrown error,
after which the caller continues from the untouched pre-attempt cursor —
exactly the source's save/restore of `currentTokenIndex`. -/
def stmtF (toks : List Token) : Nat → STask → Except Err SRes
  | 0, _ => .error .outOfFuel
  | fuel + 1, .rootT i =>
    if i < toks.length then do
      let (s, i1) ← asStmt (stmtF toks fuel (.stmtT i))
      let (rest, i2) ← asStmts (stmtF toks fuel (.rootT i1))
      pure (.stmtsR (s :: rest) i2)
    else pure (.stmtsR [] i)
  | fuel + 1, .stmtT i =>
    match toks[i]? with
    | none => .error (.thrown "TypeError: cannot read the type of an out-of-range token")
    | some t =>
      if t.type = .KEYWORD ∧ t.keyword = some .kImport then
        stmtF toks fuel (.importT i)
      else if t.type = .KEYWORD ∧ t.keyword = some .kClass then
        stmtF toks fuel (.classT i)
      else do
        let vd ← asOpt (stmtF toks fuel (.tryVarT i))
        match vd with
        | some r => pure (.stmtR r.1 r.2)
        | none => stmtF toks fuel (.exprStmtT i)
  | fuel + 1, .tryVarT i =>
    match stmtF toks fuel (.varCoreT i) with
    | .ok (.stmtR s j) => .ok (.optR (some (s, j)))
    | .ok _ => .error (.thrown "model: unexpected parse result variant")
    | .error (.thrown _) => .ok (.optR none)
    | .error .outOfFuel => .error .outOfFuel
  | fuel + 1, .varCoreT i => do
    let (type, i1) ← parseType fuel toks i
    let (variableName, i2) ← expect toks i1 [.IDENTIFIER]
    let bSemi ← isNext toks i2 .SEMICOLON
    if bSemi then
      pure (.stmtR (.varDeclS type variableName none) (i2 + 1))
    else do
      let bAssign ← isNext toks i2 .ASSIGN
      if bAssign then do
        let (value, i3) ← parseExpression fuel toks (i2 + 1)
        let (_, i4) ← expect toks i3 [.SEMICOLON]
        pure (.stmtR (.varDeclS type variableName (some value)) i4)
      else .error (.thrown "Was not able to build variable declaration")
  | fuel + 1, .importT i => do
    let (path, i1) ← importLoop fuel toks (i + 1)
    let (_, i2) ← expect toks i1 [.SEMICOLON]
    pure (.stmtR (.importS path) i2)
  | fuel + 1, .classT i => do
    let (name, i1) ← expect toks (i + 1) [.IDENTIFIER]
    let (_, i2) ← expect toks i1 [.LBRACE]
    let (methods, i3) ← asMethods (stmtF toks fuel (.classBodyT i2))
    let (_, i4) ← expect toks i3 [.RBRACE]
    pure (.stmtR (.classDeclS name methods) i4)
  | fuel + 1, .classBodyT i => do
    let b ← isNext toks i .RBRACE
    if b then pure (.methodsR [] i)
    else do
      let (m, i1) ← asMethod (stmtF toks fuel (.methodT i))
      let (rest, i2) ← asMethods (stmtF toks fuel (.classBodyT i1))
      pure (.methodsR (m :: rest) i2)
  | fuel + 1, .exprStmtT i => do
    let (e, i1) ← parseExpression fuel toks i
    let (_, i2) ← expect toks i1 [.SEMICOLON]
    pure (.stmtR (.exprS e) i2)
  | fuel + 1, .methodT i => do
    let b1 ← isNext toks i .IDENTIFIER
    let am_i1 :=
      if b1 then
        match toks[i]? with
        | some t =>
          if isAccessModifierStr t.lexeme then (toAccessModifier t.lexeme, i + 1)
          else (AccessModifier.packagePrivate, i)
        | none => (AccessModifier.packagePrivate, i)
      else (AccessModifier.packagePrivate, i)
    let b2 ← isNext toks am_i1.2 .IDENTIFIER
    let st_i2 :=
      if b2 then
        match toks[am_i1.2]? with
        | some t => if t.lexeme = "static" then (true, am_i1.2 + 1) else (false, am_i1.2)
        | none => (false, am_i1.2)
      else (false, am_i1.2)
    let (returnType, i3) ← parseType fuel toks st_i2.2
    let (methodName, i4) ← expect toks i3 [.IDENTIFIER]
    let (parameters, i5) ← parseParameterList fuel toks i4
    let (_, i6) ← expect toks i5 [.LBRACE]
    let (body, i7) ← asStmts (stmtF toks fuel (.methodBodyT i6))
    pure (.methodR (.mk am_i1.1 st_i2.1 returnType methodName parameters body) (i7 + 1))
  | fuel + 1, .methodBodyT i => do
    let b ← isNext toks i .RBRACE
    if b then pure (.stmtsR [] i)
    else do
      let (s, i1) ← asStmt (stmtF toks fuel (.stmtT i))
      let (rest, i2) ← asStmts (stmtF toks fuel (.methodBodyT i1))
      pure (.stmtsR (s :: rest) i2)

/-- Root production (src/unnamed/part_000, `Parser.parseRootLevel`). -/
def parseRootLevel (fuel : Nat) (toks : List Token) (i : Nat) :
    Except Err (List Statement × Nat) :=
  asStmts (stmtF toks fuel (.rootT i))

/-- Statement dispatch (src/unnamed/part_000, `Parser.parseStatement`). -/
def parseStatement (fuel : Nat) (toks : List Token) (i : Nat) :
    Except Err (Statement × Nat) :=
  asStmt (stmtF toks fuel (.stmtT i))

/-- Speculative attempt (src/unnamed/part_000,
`Parser.tryParseVariableDeclaration`): `some` of the parsed declaration and
new cursor on success, `none` (with the caller's cursor untouched) when
the attempt threw. -/
def tryParseVariableDeclaration (fuel : Nat) (toks : List Token) (i : Nat) :
    Except Err (Option (Statement × Nat)) :=
  asOpt (stmtF toks fuel (.tryVarT i))

/-- The body of the speculative attempt (the `try` block of
`tryParseVariableDeclaration`): a type, an identifier, then either `;` or
`= expression ;`. -/
def varDeclCore (fuel : Nat) (toks : List Token) (i : Nat) :
    Except Err (Statement × Nat) :=
  asStmt (stmtF toks fuel (.varCoreT i))

/-- Import statement (src/unnamed/part_000,
`Parser.parseImportStatement`). -/
def parseImportStatement (fuel : Nat) (toks : List Token) (i : Nat) :
    Except Err (Statement × Nat) :=
  asStmt (stmtF toks fuel (.importT i))

/-- Class declaration (src/unnamed/part_000,
`Parser.parseClassDeclaration`). -/
def parseClassDeclaration (fuel : Nat) (toks : List Token) (i : Nat) :
    Except Err (Statement × Nat) :=
  asStmt (stmtF toks fuel (.classT i))

/-- Expression statement (src/unnamed/part_000,
`Parser.parseExpressionStatement`). -/
def parseExpressionStatement (fuel : Nat) (toks : List Token) (i : Nat) :
    Except Err (Statement × Nat) :=
  asStmt (stmtF toks fuel (.exprStmtT i))

/-- Method declaration (src/unnamed/part_000,
`Parser.parseMethodDeclaration`). -/
def parseMethodDeclaration (fuel : Nat) (toks : List Token) (i : Nat) :
    Except Err (MethodDeclaration × Nat) :=
  asMethod (stmtF toks fuel (.methodT i))

/-! ### Runtime values and environments

`Value` is the closed tagged-variant type of src/src/Value.ts (the
canonical async snapshot).  Host-defined method implementations cannot be
embedded as functions (they would occur negatively), so the closed set of
standard-library implementations is enumerated by `InternalImpl` and
interpreted by `runInternal`.  `hostNullV` models the raw host `null`
returned by `UserDefinedMethodValue.callFunction` (`return null as any`),
which is not a `Value` instance and crashes when printed or accessed.

An `Environment` object of the source holds a local binding table and a
reference to its parent; an environment is modelled by the list of the
binding tables along its parent chain, head first (its own table, then the
parent's, and so on; an exhausted list is the missing-parent case).  This
representation is faithful for everything the claims exercise because no
interpreter operation ever writes through the parent reference. -/

/-- The closed set of host-defined method bodies built by
`createStandardLibrary` (src/src/Interpreter.ts). -/
inductive InternalImpl where
  | printlnI
  | printI
  | printfI
  | nextLineI
  | nextIntI
  | nextFloatI
deriving DecidableEq, Repr

/-- Runtime values (src/src/Value.ts).  Class and instance member tables
are insertion-ordered association lists (JavaScript `Map`); the
environments captured by methods are parent chains of binding tables as
described above. -/
inductive Value where
  | strV (s : String)
  | numV (q : JSNumber)
  | nullV
  | hostNullV
  | pkgV (underlying : List (String × Value))
  | internalClassV (statics nonStatics : List (String × Value))
  | userClassV (statics nonStatics : List (String × Value))
  | classInstanceV (underlying : List (String × Value))
  | userClassInstanceV (classConstructor : Value) (underlying : List (String × Value))
  | userMethodV (environment : List (List (String × Value)))
      (parameters : List (TypeDefinition × String)) (body : List Statement)
  | internalMethodV (environment : List (List (String × Value)))
      (parameters : List (TypeDefinition × String)) (varArgs : Bool) (impl : InternalImpl)

/-- A lexical scope (src/src/Interpreter.ts, `class Environment`): the
chain of binding tables, own table first. -/
abbrev Env := List (List (String × Value))

/-- Lookup in a binding table (JavaScript `Map.get`). -/
def assocGet (l : List (String × Value)) (k : String) : Option Value :=
  match l with
  | [] => none
  | (k1, v) :: rest => if k1 = k then some v else assocGet rest k

/-- Update of a binding table (JavaScript `Map.set`): an existing key is
updated in place, a fresh key is appended. -/
def assocSet (l : List (String × Value)) (k : String) (v : Value) :
    List (String × Value) :=
  match l with
  | [] => [(k, v)]
  | (k1, v1) :: rest => if k1 = k then (k, v) :: rest else (k1, v1) :: assocSet rest k v

/-- Chained lookup (src/src/Interpreter.ts, `Environment.get`): local table
first, then the parent chain; an undefined-variable error when the chain is
exhausted. -/
def envGet : Env → String → Except Err Value
  | [], k => .error (.thrown ("Undefined variable: " ++ k))
  | u :: p, k =>
    match assocGet u k with
    | some v => .ok v
    | none => envGet p k

/-- Write (src/src/Interpreter.ts, `Environment.setValue`): always writes
to the local table, never to an ancestor.  (The nil case is unreachable:
every environment the interpreter builds owns a table.) -/
def envSetValue : Env → String → Value → Env
  | [], k, v => [[(k, v)]]
  | u :: p, k, v => assocSet u k v :: p

/-- The local binding table of an environment. -/
def envLocal : Env → List (String × Value)
  | [] => []
  | u :: _ => u

/-- The parent of an environment (the rest of its chain). -/
def envParent (e : Env) : Env := e.tail

/-- All keys visible from this scope: local keys, then the parent's
(src/src/Interpreter.ts, `Environment.getAllKeys`). -/
def envGetAllKeys : Env → List String
  | [] => []
  | u :: p => u.map Prod.fst ++ envGetAllKeys p

/-- Identical twin of `getAllKeys` (src/src/Interpreter.ts,
`Environment.getKeys`); used by the entry-point search. -/
def envGetKeys : Env → List String
  | [] => []
  | u :: p => u.map Prod.fst ++ envGetKeys p

/-- The root environment (`new Environment()`): one empty table, no
parent. -/
def emptyEnv : Env := [[]]

/-- Textual representation of a value (the `toString` methods of
src/src/Value.ts).  The host `null` returned by user-method calls has no
`toString` and crashes. -/
def toStringE : Value → Except Err String
  | .strV s => .ok s
  | .numV q => .ok (jsNumToString q)
  | .nullV => .ok "null"
  | .hostNullV => .error (.thrown "TypeError: cannot read toString of null")
  | .pkgV _ => .ok "[INTERNAL] PackageValue"
  | .internalClassV _ _ => .ok "[INTERNAL] ClassValue"
  | .userClassV _ _ => .ok "[INTERNAL] ClassValue"
  | .classInstanceV _ => .ok "[INTERNAL] ClassInstanceValue"
  | .userClassInstanceV _ _ => .ok "[INTERNAL] ClassInstanceValue"
  | .userMethodV _ _ _ => .ok "[INTERNAL] MethodValue"
  | .internalMethodV _ _ _ _ => .ok "[INTERNAL] MethodValue"

/-- Member access by name (the `dotAccess` methods of src/src/Value.ts):
packages and instances look up their tables, classes resolve statics only,
a user-defined instance additionally exposes its class under `$class`, and
every other variant rejects the capability with a typed error. -/
def dotAccess : Value → String → Except Err Value
  | .strV _, _ => .error (.thrown "Strings are not dot accessible")
  | .numV _, _ => .error (.thrown "Numbers are not dot accessible")
  | .nullV, _ => .error (.thrown "Null is not dot accessible")
  | .hostNullV, _ => .error (.thrown "TypeError: cannot read properties of null")
  | .pkgV u, k =>
    match assocGet u k with
    | some v => .ok v
    | none => .error (.thrown "No value with key")
  | .internalClassV st _, k =>
    match assocGet st k with
    | some v => .ok v
    | none => .error (.thrown "No value with key")
  | .userClassV st _, k =>
    match assocGet st k with
    | some v => .ok v
    | none => .error (.thrown "No value with key")
  | .classInstanceV u, k =>
    match assocGet u k with
    | some v => .ok v
    | none => .error (.thrown ("No value with key: \"" ++ k ++ "\""))
  | .userClassInstanceV cls u, k =>
    if k = "$class" then .ok cls
    else
      match assocGet u k with
      | some v => .ok v
      | none => .error (.thrown ("No value with key: \"" ++ k ++ "\""))
  | .userMethodV _ _ _, _ => .error (.thrown "Methods are not dot accessible")
  | .internalMethodV _ _ _ _, _ => .error (.thrown "Methods are not dot accessible")

/-- The arithmetic table of `BinaryExpression.number_number`
(src/src/Expression.ts, lines 65-81). -/
def applyNumOp (op : BinaryOperator) (a b : JSNumber) : JSNumber :=
  match op with
  | .PLUS => jsAdd a b
  | .MINUS => jsSub a b
  | .STAR => jsMul a b
  | .SLASH => jsDiv a b
  | .PERCENT => jsMod a b

/-- `BinaryExpression.number_number`: the operator applied to two numbers.
Total: the source's `result === null` throw is dead code because the
operator type is exhausted by the five cases. -/
def numberNumber (op : BinaryOperator) (a b : JSNumber) : Value :=
  .numV (applyNumOp op a b)

/-- The arity-error message of `callFunction` (src/src/Value.ts). -/
def arityMsg (expected got : Nat) : String :=
  "Wrong number of arguments. Expected " ++ toString expected ++ ", got " ++ toString got

/-- Parameter binding of a call frame: a fresh child environment of the
method's declaring environment with each parameter name bound to its
argument (src/src/Value.ts, `callFunction`).  Binding is positional over
`zip`; for a variadic host method called with fewer arguments than
parameters the source would bind `undefined`, which no claim exercises. -/
def bindParams (env : Env) (params : List String) (args : List Value) : Env :=
  (List.foldl (fun u pa => assocSet u pa.1 pa.2) [] (params.zip args)) :: env

/-- Modelled from the host: the standard-library method bodies
(src/src/Interpreter.ts, `createStandardLibrary`).  Console output effects
are dropped; `println`/`print` crash on a non-string argument exactly as
the source's `newLineify(value.value)` does; the input stream is modelled
as empty lines, for which the source's `_parseInt`/`_parseFloat` wrappers
produce 0. -/
def runInternal : InternalImpl → List Value → Except Err Value
  | .printlnI, [.strV _] => .ok .nullV
  | .printlnI, _ => .error (.thrown "TypeError: value.replace is not a function")
  | .printI, [.strV _] => .ok .nullV
  | .printI, _ => .error (.thrown "TypeError: value.replace is not a function")
  | .printfI, [] => .error (.thrown "TypeError: cannot read value of undefined")
  | .printfI, _ => .ok .nullV
  | .nextLineI, _ => .ok (.strV "")
  | .nextIntI, _ => .ok (.numV (jsInt 0))
  | .nextFloatI, _ => .ok (.numV (jsInt 0))

/-- Partition of a class's parsed methods into static and non-static
member tables of `UserDefinedMethodValue`s closing over the class's
declaring environment (src/src/Value.ts, `UserDefinedClassValue`
constructor). -/
def buildClassMaps (env : Env) :
    List MethodDeclaration → List (String × Value) → List (String × Value) →
    List (String × Value) × List (String × Value)
  | [], st, ns => (st, ns)
  | .mk _ isStat _ name params body :: rest, st, ns =>
    let v := Value.userMethodV env (params.map (fun p => (p.1, p.2.lexeme))) body
    if isStat then buildClassMaps env rest (assocSet st name.lexeme v) ns
    else buildClassMaps env rest st (assocSet ns name.lexeme v)

/-- Evaluation of a class declaration to a class value
(src/src/Value.ts, `new UserDefinedClassValue(methods, environment)`). -/
def mkUserDefinedClass (methods : List MethodDeclaration) (env : Env) : Value :=
  let maps := buildClassMaps env methods [] []
  .userClassV maps.1 maps.2

/-- Entry-point test on a static table (src/src/Value.ts,
`ClassValue.hasMainMethod`): a static member named `main` that is a
user-defined method. -/
def hasMainMethod (statics : List (String × Value)) : Bool :=
  match assocGet statics "main" with
  | some (.userMethodV _ _ _) => true
  | _ => false

/-- A value qualifies as the program entry point iff it is a user-defined
class whose statics pass `hasMainMethod`
(src/unnamed/part_000, `ExecuteMainStatement.visit`, line 390). -/
def isEntryClass : Value → Bool
  | .userClassV st _ => hasMainMethod st
  | _ => false

/-! ### Import execution -/

/-- The `Hashmapish` interface (src/src/Value.ts): during import
resolution the current position is either the global `Environment` or a
`PackageValue`'s table. -/
inductive HM where
  | envH (e : Env)
  | pkgH (u : List (String × Value))

/-- `Hashmapish.get`: environment lookup walks the parent chain; package
lookup is local with a missing-key error (src/src/Value.ts,
`PackageValue.get`). -/
def HM.get : HM → String → Except Err Value
  | .envH e, k => envGet e k
  | .pkgH u, k =>
    match assocGet u k with
    | some v => .ok v
    | none => .error (.thrown "No value with key")

/-- `Hashmapish.getAllKeys`. -/
def HM.getAllKeys : HM → List String
  | .envH e => envGetAllKeys e
  | .pkgH u => u.map Prod.fst

/-- The segment loop of `ImportStatement.visit` (src/unnamed/part_000,
lines 335-350): a `*` segment copies every key visible from the current
position into the global scope and stops; an identifier segment must
resolve to a `PackageValue` (else "Tried to import a non-package") and
descends into it. -/
def importGo : List String → HM → Env → Except Err Env
  | [], _, global => .ok global
  | seg :: rest, cur, global =>
    if seg = "*" then
      (cur.getAllKeys).foldlM
        (fun g k => do
          let v ← cur.get k
          pure (envSetValue g k v))
        global
    else do
      let next ← cur.get seg
      match next with
      | .pkgV u => importGo rest (.pkgH u) global
      | _ => .error (.thrown "Tried to import a non-package")

/-- Execution of an import statement against the current (global)
environment (src/unnamed/part_000, `ImportStatement.visit`): the walk
starts at the environment itself. -/
def importVisit (path : List String) (global : Env) : Except Err Env :=
  importGo path (.envH global) global

/-! ### The evaluator

Expression evaluation, statement execution, argument evaluation and value
invocation form one recursion cycle (src/src/Expression.ts `evaluate`,
src/unnamed/part_000 `Statement.visit`, src/src/Value.ts `callFunction`);
they are one fuel-indexed function `evalF` over `IReq`, with wrappers
restoring the source names.  Environment mutation becomes explicit state
passing: expression evaluation returns the updated environment alongside
its value. -/

/-- Evaluator requests. -/
inductive IReq where
  | evalT (e : Expression) (env : Env)
  | argsT (es : List Expression) (env : Env)
  | visitT (s : Statement) (env : Env)
  | visitsT (ss : List Statement) (env : Env)
  | callT (callee : Value) (args : List Value)

/-- Evaluator results. -/
inductive IRes where
  | valR (v : Value) (env : Env)
  | valsR (vs : List Value) (env : Env)
  | envR (env : Env)
  | retR (v : Value)

/-- Projection of an expression-evaluation result. -/
def asVal : Except Err IRes → Except Err (Value × Env)
  | .ok (.valR v env) => .ok (v, env)
  | .ok _ => .error (.thrown "model: unexpected evaluation result variant")
  | .error e => .error e

/-- Projection of an argument-evaluation result. -/
def asVals : Except Err IRes → Except Err (List Value × Env)
  | .ok (.valsR vs env) => .ok (vs, env)
  | .ok _ => .error (.thrown "model: unexpected evaluation result variant")
  | .error e => .error e

/-- Projection of a statement-execution result. -/
def asEnv : Except Err IRes → Except Err Env
  | .ok (.envR env) => .ok env
  | .ok _ => .error (.thrown "model: unexpected evaluation result variant")
  | .error e => .error e

/-- Projection of an invocation result. -/
def asRet : Except Err IRes → Except Err Value
  | .ok (.retR v) => .ok v
  | .ok _ => .error (.thrown "model: unexpected evaluation result variant")
  | .error e => .error e

/-- The evaluator (src/src/Expression.ts `evaluate` methods,
src/unnamed/part_000 `visit` methods, src/src/Value.ts `callFunction`
methods), sequentialised as described in the file header. -/
def evalF : Nat → IReq → Except Err IRes
  | 0, _ => .error .outOfFuel
  | fuel + 1, .evalT e env =>
    match e with
    | .identifierE tok => do
      let v ← envGet env tok.lexeme
      pure (.valR v env)
    | .assignmentE l r =>
      match l with
      | .identifierE tok => do
        let (rv, env1) ← asVal (evalF fuel (.evalT r env))
        pure (.valR rv (envSetValue env1 tok.lexeme rv))
      | _ => .error (.thrown "Left side of assignment must be assignable")
    | .binaryE l r op => do
      let (lv, env1) ← asVal (evalF fuel (.evalT l env))
      let (rv, env2) ← asVal (evalF fuel (.evalT r env1))
      match lv, rv with
      | .numV a, .numV b => pure (.valR (numberNumber op a b) env2)
      | .strV s, rv2 => do
        let rs ← toStringE rv2
        pure (.valR (.strV (s ++ rs)) env2)
      | _, _ => .error (.thrown "Unsupported binary expresion types")
    | .dotAccessE idTok parentE => do
      let (pv, env1) ← asVal (evalF fuel (.evalT parentE env))
      let v ← dotAccess pv idTok.lexeme
      pure (.valR v env1)
    | .methodCallE m argsE => do
      let (mv, env1) ← asVal (evalF fuel (.evalT m env))
      let (argVals, env2) ← asVals (evalF fuel (.argsT argsE env1))
      let rv ← asRet (evalF fuel (.callT mv argVals))
      pure (.valR rv env2)
    | .literalE (.strL s) => pure (.valR (.strV s) env)
    | .literalE (.numL q) => pure (.valR (.numV q) env)
  | fuel + 1, .argsT es env =>
    match es with
    | [] => pure (.valsR [] env)
    | e :: rest => do
      let (v, env1) ← asVal (evalF fuel (.evalT e env))
      let (vs, env2) ← asVals (evalF fuel (.argsT rest env1))
      pure (.valsR (v :: vs) env2)
  | fuel + 1, .visitT s env =>
    match s with
    | .importS path => do
      let env1 ← importVisit path env
      pure (.envR env1)
    | .classDeclS name methods =>
      pure (.envR (envSetValue env name.lexeme (mkUserDefinedClass methods env)))
    | .exprS e => do
      let (_, env1) ← asVal (evalF fuel (.evalT e env))
      pure (.envR env1)
    | .varDeclS _ name initE =>
      match initE with
      | some e => do
        let (v, env1) ← asVal (evalF fuel (.evalT e env))
        pure (.envR (envSetValue env1 name.lexeme v))
      | none => pure (.envR (envSetValue env name.lexeme .nullV))
  | fuel + 1, .visitsT ss env =>
    match ss with
    | [] => pure (.envR env)
    | s :: rest => do
      let env1 ← asEnv (evalF fuel (.visitT s env))
      evalF fuel (.visitsT rest env1)
  | fuel + 1, .callT v args =>
    match v with
    | .strV _ => .error (.thrown "Strings are not callable")
    | .numV _ => .error (.thrown "Numbers are not callable")
    | .nullV => .error (.thrown "Null is not callable")
    | .hostNullV => .error (.thrown "TypeError: cannot call null")
    | .pkgV _ => .error (.thrown "Packages are not callable")
    | .classInstanceV _ => .error (.thrown "Class instances are not callable")
    | .userClassInstanceV _ _ => .error (.thrown "Class instances are not callable")
    | .internalClassV _ ns => pure (.retR (.classInstanceV ns))
    | .userClassV st ns => pure (.retR (.userClassInstanceV (.userClassV st ns) ns))
    | .userMethodV menv params body =>
      if args.length ≠ params.length then
        .error (.thrown (arityMsg params.length args.length))
      else do
        let frame := bindParams menv (params.map Prod.snd) args
        let _ ← asEnv (evalF fuel (.visitsT body frame))
        pure (.retR .hostNullV)
    | .internalMethodV menv params varArgs impl =>
      if varArgs = false ∧ args.length ≠ params.length then
        .error (.thrown (arityMsg params.length args.length))
      else
        let _frame := bindParams menv (params.map Prod.snd) args
        do
          let rv ← runInternal impl args
          pure (.retR rv)

/-- Expression evaluation (src/src/Expression.ts, `evaluate`), returning
the value and the updated environment. -/
def evaluate (fuel : Nat) (e : Expression) (env : Env) :
    Except Err (Value × Env) :=
  asVal (evalF fuel (.evalT e env))

/-- Left-to-right evaluation of a call's argument expressions
(src/src/Expression.ts, `MethodCallExpression.evaluate`). -/
def evalArgs (fuel : Nat) (es : List Expression) (env : Env) :
    Except Err (List Value × Env) :=
  asVals (evalF fuel (.argsT es env))

/-- Statement execution (src/unnamed/part_000, the `visit` methods). -/
def visitStmt (fuel : Nat) (s : Statement) (env : Env) : Except Err Env :=
  asEnv (evalF fuel (.visitT s env))

/-- Sequential execution of a statement list. -/
def visitStmts (fuel : Nat) (ss : List Statement) (env : Env) : Except Err Env :=
  asEnv (evalF fuel (.visitsT ss env))

/-- Value invocation (src/src/Value.ts, the `callFunction` methods). -/
def callFunction (fuel : Nat) (v : Value) (args : List Value) : Except Err Value :=
  asRet (evalF fuel (.callT v args))

/-! ### The synthetic entry-point statement -/

/-- The scan loop of `ExecuteMainStatement.visit` (src/unnamed/part_000,
lines 384-402): walk the environment's keys; at the first binding that is
a user-defined class with an entry point, invoke its `main` with the single
fixed greeting string and stop; if the scan is exhausted, fail with the
no-entry-point error. -/
def execMainLoop (fuel : Nat) (env : Env) : List String → Except Err Unit
  | [] => .error (.thrown "No main method found")
  | k :: rest => do
    let v ← envGet env k
    match v with
    | .userClassV st _ =>
      if hasMainMethod st then
        match assocGet st "main" with
        | some (.userMethodV me mp mb) => do
          let _ ← callFunction fuel (.userMethodV me mp mb) [.strV "Hello World"]
          pure ()
        | _ => execMainLoop fuel env rest
      else execMainLoop fuel env rest
    | _ => execMainLoop fuel env rest

/-- Execution of the synthetic entry-point statement
(src/unnamed/part_000, `ExecuteMainStatement.visit`). -/
def execMain (fuel : Nat) (env : Env) : Except Err Unit :=
  execMainLoop fuel env (envGetKeys env)

/-! ### The standard library -/

/-- The placeholder token of the stdlib parameter declarations
(`new Token()` with undefined fields in src/src/Interpreter.ts). -/
def dummyToken : Token := { type := .IDENTIFIER, lexeme := "" }

/-- The stdlib parameter type (`{ base: new Token(), dim: 0 }`). -/
def dummyType : TypeDefinition := { base := dummyToken, dim := 0 }

/-- The pre-populated root environment (src/src/Interpreter.ts,
`createStandardLibrary`): `System` (an instance exposing `out` with
`println`/`print`/`printf`, and an empty `in`) and the `java` package
hierarchy `java.util.Scanner`.  In the source the stdlib methods close
over the root environment object itself (a reference cycle); here they
close over an empty-environment snapshot, which is observationally equal
because no stdlib implementation reads its environment. -/
def stdlibEnv : Env :=
  let printlnV := Value.internalMethodV emptyEnv [(dummyType, "value")] false .printlnI
  let printV := Value.internalMethodV emptyEnv [(dummyType, "value")] false .printI
  let printfV := Value.internalMethodV emptyEnv [(dummyType, "value")] true .printfI
  let outV := Value.classInstanceV
    [("println", printlnV), ("print", printV), ("printf", printfV)]
  let systemV := Value.classInstanceV [("out", outV), ("in", .classInstanceV [])]
  let scannerV := Value.internalClassV []
    [("nextLine", .internalMethodV emptyEnv [] false .nextLineI),
     ("nextInt", .internalMethodV emptyEnv [] false .nextIntI),
     ("nextFloat", .internalMethodV emptyEnv [] false .nextFloatI)]
  let javaV := Value.pkgV [("util", Value.pkgV [("Scanner", scannerV)])]
  envSetValue (envSetValue emptyEnv "System" systemV) "java" javaV

/-! ### Concrete tokens used by the claims' theorems -/

/-- Identifier token. -/
def identTok (s : String) : Token := { type := .IDENTIFIER, lexeme := s }

/-- Number token (the lexer's lexeme keeps a trailing dot, e.g. "2."). -/
def numTok (s : String) : Token := { type := .NUMBER, lexeme := s }

/-- Semicolon token. -/
def semiTok : Token := { type := .SEMICOLON, lexeme := ";" }

/-- Dot token. -/
def dotTok : Token := { type := .DOT, lexeme := "." }

/-- Left-parenthesis token. -/
def lparenTok : Token := { type := .LPAREN, lexeme := "(" }

/-- Right-parenthesis token. -/
def rparenTok : Token := { type := .RPAREN, lexeme := ")" }

/-- Comma token. -/
def commaTok : Token := { type := .COMMA, lexeme := "," }

/-- Plus token. -/
def plusTok : Token := { type := .PLUS, lexeme := "+" }

/-- Minus token. -/
def minusTok : Token := { type := .MINUS, lexeme := "-" }

/-- Star token (also the `*` import segment). -/
def starTok : Token := { type := .STAR, lexeme := "*" }

/-- Slash token. -/
def slashTok : Token := { type := .SLASH, lexeme := "/" }

/-- The `import` keyword token. -/
def importTok : Token := { type := .KEYWORD, lexeme := "import", keyword := some .kImport }

/-! ### Derived dispatch table of binary evaluation

`binaryDispatch` restates the runtime-variant dispatch of
`BinaryExpression.evaluate` (src/src/Expression.ts, lines 87-96) on the
two already-evaluated operand values; the theorems below prove that
evaluation of a binary expression factors through it. -/

/-- Dispatch of `BinaryExpression.evaluate` on the runtime variant pair:
both numbers use the arithmetic table; otherwise a `String` left operand
concatenates the textual representations; every other pair is the
type-mismatch error. -/
def binaryDispatch (op : BinaryOperator) (lv rv : Value) : Except Err Value :=
  match lv, rv with
  | .numV a, .numV b => .ok (numberNumber op a b)
  | .strV s, rv2 => (toStringE rv2).map (fun rs => Value.strV (s ++ rs))
  | _, _ => .error (.thrown "Unsupported binary expresion types")

/-- Package test (`next instanceof PackageValue` in `ImportStatement.visit`). -/
def isPkg : Value → Bool
  | .pkgV _ => true
  | _ => false



/-! ## Helper lemmas -/

theorem assocGet_assocSet_self (u : List (String × Value)) (k : String) (v : Value) :
    assocGet (assocSet u k v) k = some v := by
  induction u with
  | nil => simp [assocSet, assocGet]
  | cons hd tl ih =>
    by_cases h : hd.1 = k
    · simp [assocSet, h, assocGet]
    · simp [assocSet, h, assocGet, ih]

theorem assocGet_assocSet_ne (u : List (String × Value)) (k m : String) (v : Value)
    (h : m ≠ k) : assocGet (assocSet u k v) m = assocGet u m := by
  induction u with
  | nil => simp [assocSet, assocGet, Ne.symm h]
  | cons hd tl ih =>
    by_cases h1 : hd.1 = k
    · simp [assocSet, h1, assocGet, Ne.symm h]
    · simp [assocSet, h1, assocGet, ih]

theorem assocGet_isSome_of_mem_keys (u : List (String × Value)) (k : String)
    (h : k ∈ u.map Prod.fst) : ∃ v, assocGet u k = some v := by
  induction u with
  | nil => simp at h
  | cons hd tl ih =>
    by_cases h1 : hd.1 = k
    · exact ⟨hd.2, by simp [assocGet, h1]⟩
    · rw [List.map_cons] at h
      rcases List.mem_cons.mp h with h3 | h3
      · exact absurd h3.symm h1
      · rcases ih h3 with ⟨v, hv⟩
        exact ⟨v, by simp [assocGet, h1, hv]⟩

theorem envGet_ok_of_mem_getKeys (e : Env) (k : String) (h : k ∈ envGetKeys e) :
    ∃ v, envGet e k = .ok v := by
  induction e with
  | nil => simp [envGetKeys] at h
  | cons u p ih =>
    rw [envGetKeys] at h
    rcases List.mem_append.mp h with hloc | hpar
    · rcases assocGet_isSome_of_mem_keys u k hloc with ⟨v, hv⟩
      exact ⟨v, by simp [envGet, hv]⟩
    · rcases ih hpar with ⟨v, hv⟩
      cases hg : assocGet u k with
      | some w => exact ⟨w, by simp [envGet, hg]⟩
      | none => exact ⟨v, by simp [envGet, hg, hv]⟩

theorem except_bind_unit {α : Type} (x : Except Err α) :
    (do let _ ← x; pure ()) = Except.map (fun _ => ()) x := by
  cases x <;> rfl

theorem exceptBind_ok {α β : Type} (a : α) (f : α → Except Err β) :
    (Except.ok a >>= f) = f a := rfl

theorem exceptBind_error {α β : Type} (e : Err) (f : α → Except Err β) :
    ((Except.error e : Except Err α) >>= f) = .error e := rfl

/-! ## C4 -/

/-- Claim C4: `setValue` writes only to the environment's local binding
table, never to an ancestor; assigning inside a nested scope creates a new
local shadow, and a call leaves the caller's environment unchanged. -/
theorem setValue_local_only :
    (∀ (u : List (String × Value)) (p : Env) (n : String) (v : Value),
      envSetValue (u :: p) n v = assocSet u n v :: p)
    ∧ (∀ (e : Env) (n : String) (v : Value),
      envParent (envSetValue e n v) = envParent e)
    ∧ (∀ (e : Env) (n : String) (v : Value),
      envGet (envSetValue e n v) n = .ok v)
    ∧ (∀ (e : Env) (n : String) (v : Value) (m : String), m ≠ n →
      envGet (envSetValue e n v) m = envGet e m)
    ∧ (∀ (e : Env) (names : List String) (args : List Value),
      envParent (bindParams e names args) = e)
    ∧ (∀ (fuel : Nat) (callee : Expression) (argsE : List Expression)
        (env : Env) (f : Value) (env1 : Env) (vs : List Value) (env2 : Env) (rv : Value),
      evaluate fuel callee env = .ok (f, env1) →
      evalArgs fuel argsE env1 = .ok (vs, env2) →
      callFunction fuel f vs = .ok rv →
      evaluate (fuel + 1) (.methodCallE callee argsE) env = .ok (rv, env2)) := by
  refine ⟨fun u p n v => rfl, ?_, ?_, ?_, fun e names args => rfl, ?_⟩
  · intro e n v
    cases e with
    | nil => rfl
    | cons u p => rfl
  · intro e n v
    cases e with
    | nil => simp [envSetValue, envGet, assocGet]
    | cons u p => simp [envSetValue, envGet, assocGet_assocSet_self]
  · intro e n v m hm
    cases e with
    | nil => simp [envSetValue, envGet, assocGet, Ne.symm hm]
    | cons u p => simp [envSetValue, envGet, assocGet_assocSet_ne u n m v hm]
  · intro fuel callee argsE env f env1 vs env2 rv hl hargs hcall
    simp only [evaluate, evalArgs, callFunction] at hl hargs hcall ⊢
    rw [show evalF (fuel + 1) (.evalT (.methodCallE callee argsE) env) =
      (do
        let (mv, env1) ← asVal (evalF fuel (.evalT callee env))
        let (argVals, env2) ← asVals (evalF fuel (.argsT argsE env1))
        let rv ← asRet (evalF fuel (.callT mv argVals))
        pure (.valR rv env2)) from rfl]
    rw [hl]
    simp only [exceptBind_ok]
    rw [hargs]
    simp only [exceptBind_ok]
    rw [hcall]
    simp only [exceptBind_ok]
    rfl

/-- Witness for C4 at a concrete nested environment and a concrete call. -/
theorem setValue_local_only_witness :
    envGet (envSetValue [[("x", Value.nullV)], [("y", .strV "outer")]] "y" (.strV "inner")) "y"
        = .ok (.strV "inner")
    ∧ envGet (envSetValue [[("x", Value.nullV)], [("y", .strV "outer")]] "y" (.strV "inner")) "x"
        = envGet [[("x", Value.nullV)], [("y", .strV "outer")]] "x"
    ∧ evaluate 2 (.methodCallE (.literalE (.strL "f")) []) emptyEnv
        = .error (.thrown "Strings are not callable") := by
  refine ⟨setValue_local_only.2.2.1 _ "y" (.strV "inner"),
    setValue_local_only.2.2.2.1 _ "y" (.strV "inner") "x" (by decide), rfl⟩

/-! ## C5 -/

/-- Claim C5: invoking a non-variadic method with a wrong argument count
raises the arity error before any binding or body execution; a variadic
method skips the check entirely. -/
theorem arity_check :
    (∀ (cf : Nat) (menv : Env) (params : List (TypeDefinition × String))
        (body : List Statement) (args : List Value),
      args.length ≠ params.length →
      callFunction (cf + 1) (.userMethodV menv params body) args =
        .error (.thrown (arityMsg params.length args.length)))
    ∧ (∀ (cf : Nat) (menv : Env) (params : List (TypeDefinition × String))
        (impl : InternalImpl) (args : List Value),
      args.length ≠ params.length →
      callFunction (cf + 1) (.internalMethodV menv params false impl) args =
        .error (.thrown (arityMsg params.length args.length)))
    ∧ (∀ (cf : Nat) (menv : Env) (params : List (TypeDefinition × String))
        (impl : InternalImpl) (args : List Value),
      callFunction (cf + 1) (.internalMethodV menv params true impl) args =
        runInternal impl args) := by
  refine ⟨?_, ?_, ?_⟩
  · intro cf menv params body args h
    simp only [callFunction]
    rw [show evalF (cf + 1) (.callT (.userMethodV menv params body) args) =
      (if args.length ≠ params.length then
        .error (.thrown (arityMsg params.length args.length))
      else do
        let frame := bindParams menv (params.map Prod.snd) args
        let _ ← asEnv (evalF cf (.visitsT body frame))
        pure (.retR .hostNullV)) from rfl]
    rw [if_pos h]
    rfl
  · intro cf menv params impl args h
    simp only [callFunction]
    rw [show evalF (cf + 1) (.callT (.internalMethodV menv params false impl) args) =
      (if (false = false ∧ args.length ≠ params.length) then
        .error (.thrown (arityMsg params.length args.length))
      else
        do
          let rv ← runInternal impl args
          pure (.retR rv)) from rfl]
    rw [if_pos ⟨rfl, h⟩]
    rfl
  · intro cf menv params impl args
    simp only [callFunction]
    rw [show evalF (cf + 1) (.callT (.internalMethodV menv params true impl) args) =
      (if (true = false ∧ args.length ≠ params.length) then
        .error (.thrown (arityMsg params.length args.length))
      else
        do
          let rv ← runInternal impl args
          pure (.retR rv)) from rfl]
    rw [if_neg (by simp)]
    cases runInternal impl args <;> rfl

/-- Witness for C5: a two-parameter user method invoked with one argument,
a one-parameter host method invoked with two arguments, and a variadic
host method invoked with no arguments. -/
theorem arity_check_witness :
    callFunction 1 (.userMethodV emptyEnv [(dummyType, "a"), (dummyType, "b")] []) [.strV "x"]
        = .error (.thrown (arityMsg 2 1))
    ∧ callFunction 1 (.internalMethodV emptyEnv [(dummyType, "value")] false .printlnI)
        [.strV "x", .strV "y"] = .error (.thrown (arityMsg 1 2))
    ∧ callFunction 1 (.internalMethodV emptyEnv [(dummyType, "value")] true .printfI) []
        = runInternal .printfI [] := by
  exact ⟨arity_check.1 0 emptyEnv [(dummyType, "a"), (dummyType, "b")] [] [.strV "x"] (by decide),
    arity_check.2.1 0 emptyEnv [(dummyType, "value")] .printlnI [.strV "x", .strV "y"] (by decide),
    arity_check.2.2 0 emptyEnv [(dummyType, "value")] .printfI []⟩



/-! ## C9 -/

/-- Claim C9: when the left operand evaluates to a String, the result is
the concatenation of the operands' textual representations for every one
of the five operators — the operator is never consulted on this path. -/
theorem string_concat_ignores_operator :
    (∀ (fuel : Nat) (l r : Expression) (op : BinaryOperator) (env : Env)
        (s : String) (env1 : Env) (rv : Value) (env2 : Env) (rs : String),
      evaluate fuel l env = .ok (.strV s, env1) →
      evaluate fuel r env1 = .ok (rv, env2) →
      toStringE rv = .ok rs →
      evaluate (fuel + 1) (.binaryE l r op) env = .ok (.strV (s ++ rs), env2))
    ∧ (∀ op : BinaryOperator,
      evaluate 2 (.binaryE (.literalE (.strL "a")) (.literalE (.strL "b")) op) emptyEnv =
        .ok (.strV "ab", emptyEnv)) := by
  constructor
  · intro fuel l r op env s env1 rv env2 rs hl hr hts
    simp only [evaluate] at hl hr ⊢
    rw [show evalF (fuel + 1) (.evalT (.binaryE l r op) env) =
      (do
        let (lv, env1) ← asVal (evalF fuel (.evalT l env))
        let (rv, env2) ← asVal (evalF fuel (.evalT r env1))
        match lv, rv with
        | .numV a, .numV b => pure (.valR (numberNumber op a b) env2)
        | .strV s, rv2 => do
          let rs ← toStringE rv2
          pure (.valR (.strV (s ++ rs)) env2)
        | _, _ => .error (.thrown "Unsupported binary expresion types")) from rfl]
    rw [hl]
    simp only [exceptBind_ok]
    rw [hr]
    simp only [exceptBind_ok]
    rw [show (toStringE rv >>= fun rs => (pure (IRes.valR (.strV (s ++ rs)) env2) : Except Err IRes)) =
      ((Except.ok rs : Except Err String) >>= fun rs => pure (IRes.valR (.strV (s ++ rs)) env2)) from by rw [hts]]
    rfl
  · intro op
    cases op <;> rfl

/-- Witness for C9: `"a" - "b"` evaluates to `String("ab")`. -/
theorem string_concat_ignores_operator_witness :
    evaluate 2 (.binaryE (.literalE (.strL "a")) (.literalE (.strL "b")) .MINUS) emptyEnv =
      .ok (.strV "ab", emptyEnv) :=
  string_concat_ignores_operator.1 1 (.literalE (.strL "a")) (.literalE (.strL "b"))
    .MINUS emptyEnv "a" emptyEnv (.strV "b") emptyEnv "b" rfl rfl rfl

/-! ## C1 -/

/-- Counterexample to C1 as stated: `1 + "x"` has a String operand, but
evaluation raises the type-mismatch error instead of concatenating. -/
theorem mixed_operand_counterexample :
    evaluate 2 (.binaryE (.literalE (.numL (jsInt 1))) (.literalE (.strL "x")) .PLUS) emptyEnv =
      .error (.thrown "Unsupported binary expresion types") := rfl

/-- Claim C1 (amended): binary evaluation is eager, left before right, and
dispatches on the runtime variant pair through `binaryDispatch`: two
Numbers use the five-operator arithmetic table (division by zero is total,
not an interpreter-level error); a String left operand concatenates the
textual representations; every other pair — including Number-left /
String-right — fails with the type error. -/
theorem binary_dispatch_corrected :
    (∀ (fuel : Nat) (l r : Expression) (op : BinaryOperator) (env : Env)
        (lv : Value) (env1 : Env) (rv : Value) (env2 : Env),
      evaluate fuel l env = .ok (lv, env1) →
      evaluate fuel r env1 = .ok (rv, env2) →
      evaluate (fuel + 1) (.binaryE l r op) env =
        Except.map (fun v => (v, env2)) (binaryDispatch op lv rv))
    ∧ (∀ op a b, binaryDispatch op (.numV a) (.numV b) = .ok (.numV (applyNumOp op a b)))
    ∧ (∀ a, binaryDispatch .SLASH (.numV a) (.numV (jsInt 0)) = .ok (.numV (jsDiv a (jsInt 0))))
    ∧ (∀ op s v rs, toStringE v = .ok rs →
        binaryDispatch op (.strV s) v = .ok (.strV (s ++ rs)))
    ∧ (∀ op a s, binaryDispatch op (.numV a) (.strV s) =
        .error (.thrown "Unsupported binary expresion types"))
    ∧ (∀ op, binaryDispatch op .nullV .nullV =
        .error (.thrown "Unsupported binary expresion types")) := by
  refine ⟨?_, fun op a b => rfl, fun a => rfl, ?_, fun op a s => rfl, fun op => rfl⟩
  · intro fuel l r op env lv env1 rv env2 hl hr
    simp only [evaluate] at hl hr ⊢
    rw [show evalF (fuel + 1) (.evalT (.binaryE l r op) env) =
      (do
        let (lv, env1) ← asVal (evalF fuel (.evalT l env))
        let (rv, env2) ← asVal (evalF fuel (.evalT r env1))
        match lv, rv with
        | .numV a, .numV b => pure (.valR (numberNumber op a b) env2)
        | .strV s, rv2 => do
          let rs ← toStringE rv2
          pure (.valR (.strV (s ++ rs)) env2)
        | _, _ => .error (.thrown "Unsupported binary expresion types")) from rfl]
    rw [hl]
    simp only [exceptBind_ok]
    rw [hr]
    simp only [exceptBind_ok]
    cases lv <;> cases rv <;> rfl
  · intro op s v rs hts
    simp only [binaryDispatch, hts]
    rfl

/-- Witness for C1's amended theorem at concrete operands. -/
theorem binary_dispatch_corrected_witness :
    evaluate 2 (.binaryE (.literalE (.numL (jsInt 1))) (.literalE (.strL "x")) .PLUS) emptyEnv =
      Except.map (fun v => (v, emptyEnv)) (binaryDispatch .PLUS (.numV (jsInt 1)) (.strV "x"))
    ∧ binaryDispatch .MINUS (.strV "a") (.strV "b") = .ok (.strV "ab") := by
  exact ⟨binary_dispatch_corrected.1 1 (.literalE (.numL (jsInt 1))) (.literalE (.strL "x"))
    .PLUS emptyEnv (.numV (jsInt 1)) emptyEnv (.strV "x") emptyEnv rfl rfl,
    binary_dispatch_corrected.2.2.2.1 .MINUS "a" (.strV "b") "b" rfl⟩

/-! ## C10 -/

theorem importGo_no_star_ok (path : List String) :
    ∀ (cur : HM) (global env2 : Env), "*" ∉ path →
      importGo path cur global = .ok env2 → env2 = global := by
  induction path with
  | nil =>
    intro cur global env2 _ h
    simp only [importGo] at h
    exact (Except.ok.inj h).symm
  | cons seg rest ih =>
    intro cur global env2 hstar h
    have hseg : seg ≠ "*" := fun he => hstar (he ▸ List.mem_cons_self seg rest)
    have hrest : "*" ∉ rest := fun hm => hstar (List.mem_cons_of_mem seg hm)
    simp only [importGo, if_neg hseg] at h
    cases hg : cur.get seg with
    | error e => rw [hg] at h; exact absurd h (by simp [exceptBind_error])
    | ok v =>
      rw [hg] at h
      simp only [exceptBind_ok] at h
      cases v with
      | pkgV u => exact ih (.pkgH u) global env2 hrest h
      | strV s => exact absurd h (by simp)
      | numV q => exact absurd h (by simp)
      | nullV => exact absurd h (by simp)
      | hostNullV => exact absurd h (by simp)
      | internalClassV st ns => exact absurd h (by simp)
      | userClassV st ns => exact absurd h (by simp)
      | classInstanceV u => exact absurd h (by simp)
      | userClassInstanceV c u => exact absurd h (by simp)
      | userMethodV e p b => exact absurd h (by simp)
      | internalMethodV e p va im => exact absurd h (by simp)

/-- Claim C10: a wildcard-free import never modifies any binding (success
returns the global environment unchanged), requires every segment — the
final one included — to resolve to a Package, and fails at the first
segment resolving to a non-Package value; in particular importing the
class `java.util.Scanner` from the standard library fails, and the
successful `import java.util;` leaves the environment exactly unchanged. -/
theorem import_no_wildcard_pure :
    (∀ (path : List String) (env env2 : Env), "*" ∉ path →
      importVisit path env = .ok env2 → env2 = env)
    ∧ (∀ (env : Env) (k : String) (rest : List String) (v : Value),
      k ≠ "*" → envGet env k = .ok v → isPkg v = false →
      importVisit (k :: rest) env = .error (.thrown "Tried to import a non-package"))
    ∧ importVisit ["java", "util", "Scanner"] stdlibEnv =
        .error (.thrown "Tried to import a non-package")
    ∧ importVisit ["java", "util"] stdlibEnv = .ok stdlibEnv := by
  refine ⟨?_, ?_, rfl, rfl⟩
  · intro path env env2 hstar h
    exact importGo_no_star_ok path (.envH env) env env2 hstar h
  · intro env k rest v hk hget hpkg
    simp only [importVisit, importGo, if_neg hk]
    rw [show HM.get (.envH env) k = envGet env k from rfl, hget]
    simp only [exceptBind_ok]
    cases v <;> simp_all [isPkg]

/-- Witness for C10 at the standard library: `import java;` succeeds and
leaves the environment unchanged, and `import System...` fails at its
first segment because `System` is not a package. -/
theorem import_no_wildcard_pure_witness :
    stdlibEnv = stdlibEnv
    ∧ importVisit ["System"] stdlibEnv = .error (.thrown "Tried to import a non-package") := by
  refine ⟨import_no_wildcard_pure.1 ["java"] stdlibEnv stdlibEnv (by decide) rfl, ?_⟩
  exact import_no_wildcard_pure.2.1 stdlibEnv "System" [] _ (by decide) rfl rfl



/-! ## C2 -/

/-- Claim C2: statement parsing that is not committed to the `import` or
`class` keyword first speculatively attempts a variable declaration; on
failure the cursor is restored to the pre-attempt position and a bare
expression statement is parsed from there instead.  `Foo x;` parses as a
variable declaration and `foo.bar();` as an expression statement, in both
cases with the same final cursor as direct parsing of the chosen
alternative. -/
theorem speculative_var_decl :
    (∀ (fuel : Nat) (toks : List Token) (i : Nat) (t : Token),
      toks[i]? = some t →
      ¬(t.type = .KEYWORD ∧ t.keyword = some .kImport) →
      ¬(t.type = .KEYWORD ∧ t.keyword = some .kClass) →
      parseStatement (fuel + 1) toks i =
        match tryParseVariableDeclaration fuel toks i with
        | .ok (some r) => .ok r
        | .ok none => parseExpressionStatement fuel toks i
        | .error e => .error e)
    ∧ (parseStatement 20 [identTok "Foo", identTok "x", semiTok] 0 =
        .ok (.varDeclS ⟨identTok "Foo", 0⟩ (identTok "x") none, 3)
      ∧ varDeclCore 19 [identTok "Foo", identTok "x", semiTok] 0 =
        .ok (.varDeclS ⟨identTok "Foo", 0⟩ (identTok "x") none, 3))
    ∧ (parseStatement 20 [identTok "foo", dotTok, identTok "bar", lparenTok, rparenTok, semiTok] 0 =
        .ok (.exprS (.methodCallE (.dotAccessE (identTok "bar") (.identifierE (identTok "foo"))) []), 6)
      ∧ parseExpressionStatement 19
          [identTok "foo", dotTok, identTok "bar", lparenTok, rparenTok, semiTok] 0 =
        .ok (.exprS (.methodCallE (.dotAccessE (identTok "bar") (.identifierE (identTok "foo"))) []), 6)
      ∧ tryParseVariableDeclaration 19
          [identTok "foo", dotTok, identTok "bar", lparenTok, rparenTok, semiTok] 0 = .ok none) := by
  refine ⟨?_, ⟨rfl, rfl⟩, ⟨rfl, rfl, rfl⟩⟩
  intro fuel toks i t ht h1 h2
  simp only [parseStatement, tryParseVariableDeclaration, parseExpressionStatement]
  rw [show stmtF toks (fuel + 1) (.stmtT i) =
    (if t.type = .KEYWORD ∧ t.keyword = some .kImport then
       stmtF toks fuel (.importT i)
     else if t.type = .KEYWORD ∧ t.keyword = some .kClass then
       stmtF toks fuel (.classT i)
     else do
       let vd ← asOpt (stmtF toks fuel (.tryVarT i))
       match vd with
       | some r => pure (.stmtR r.1 r.2)
       | none => stmtF toks fuel (.exprStmtT i)) from by
    rw [show stmtF toks (fuel + 1) (.stmtT i) =
      (match toks[i]? with
       | none => .error (.thrown "TypeError: cannot read the type of an out-of-range token")
       | some t =>
         if t.type = .KEYWORD ∧ t.keyword = some .kImport then
           stmtF toks fuel (.importT i)
         else if t.type = .KEYWORD ∧ t.keyword = some .kClass then
           stmtF toks fuel (.classT i)
         else do
           let vd ← asOpt (stmtF toks fuel (.tryVarT i))
           match vd with
           | some r => pure (.stmtR r.1 r.2)
           | none => stmtF toks fuel (.exprStmtT i)) from rfl, ht]]
  rw [if_neg h1, if_neg h2]
  cases hv : asOpt (stmtF toks fuel (.tryVarT i)) with
  | error e => rfl
  | ok vd =>
    simp only [exceptBind_ok]
    cases vd with
    | none => rfl
    | some r => rfl

/-- Witness for C2's dispatch rule at a concrete identifier-led stream. -/
theorem speculative_var_decl_witness :
    parseStatement 6 [identTok "q", semiTok] 0 =
      match tryParseVariableDeclaration 5 [identTok "q", semiTok] 0 with
      | .ok (some r) => .ok r
      | .ok none => parseExpressionStatement 5 [identTok "q", semiTok] 0
      | .error e => .error e :=
  speculative_var_decl.1 5 [identTok "q", semiTok] 0 (identTok "q") rfl
    (by decide) (by decide)

/-! ## C3 -/

theorem execMainLoop_no_entry (cf : Nat) (env : Env) :
    ∀ keys : List String,
      (∀ k ∈ keys, ∃ v, envGet env k = .ok v ∧ isEntryClass v = false) →
      execMainLoop cf env keys = .error (.thrown "No main method found") := by
  intro keys
  induction keys with
  | nil => intro _; rfl
  | cons k rest ih =>
    intro h
    rcases h k (List.mem_cons_self k rest) with ⟨v, hv, hent⟩
    have hrest : ∀ k' ∈ rest, ∃ v, envGet env k' = .ok v ∧ isEntryClass v = false :=
      fun k' hk' => h k' (List.mem_cons_of_mem _ hk')
    rw [show execMainLoop cf env (k :: rest) =
      (do
        let v ← envGet env k
        match v with
        | .userClassV st _ =>
          if hasMainMethod st then
            match assocGet st "main" with
            | some (.userMethodV me mp mb) => do
              let _ ← callFunction cf (.userMethodV me mp mb) [.strV "Hello World"]
              pure ()
            | _ => execMainLoop cf env rest
          else execMainLoop cf env rest
        | _ => execMainLoop cf env rest) from rfl]
    rw [hv]
    simp only [exceptBind_ok]
    cases v with
    | userClassV st ns =>
      have hmm : hasMainMethod st = false := by simpa [isEntryClass] using hent
      simp only [hmm, Bool.false_eq_true, if_false]
      exact ih hrest
    | strV s => exact ih hrest
    | numV q => exact ih hrest
    | nullV => exact ih hrest
    | hostNullV => exact ih hrest
    | pkgV u => exact ih hrest
    | internalClassV st ns => exact ih hrest
    | classInstanceV u => exact ih hrest
    | userClassInstanceV c u => exact ih hrest
    | userMethodV e p b => exact ih hrest
    | internalMethodV e p va im => exact ih hrest

theorem execMainLoop_found (cf : Nat) (env : Env) :
    ∀ (ks1 : List String) (k : String) (ks2 : List String)
      (st ns : List (String × Value)) (me : Env)
      (mp : List (TypeDefinition × String)) (mb : List Statement),
      (∀ k' ∈ ks1, ∃ v, envGet env k' = .ok v ∧ isEntryClass v = false) →
      envGet env k = .ok (.userClassV st ns) →
      assocGet st "main" = some (.userMethodV me mp mb) →
      execMainLoop cf env (ks1 ++ k :: ks2) =
        Except.map (fun _ => ())
          (callFunction cf (.userMethodV me mp mb) [.strV "Hello World"]) := by
  intro ks1
  induction ks1 with
  | nil =>
    intro k ks2 st ns me mp mb _ hk hmain
    rw [List.nil_append]
    rw [show execMainLoop cf env (k :: ks2) =
      (do
        let v ← envGet env k
        match v with
        | .userClassV st _ =>
          if hasMainMethod st then
            match assocGet st "main" with
            | some (.userMethodV me mp mb) => do
              let _ ← callFunction cf (.userMethodV me mp mb) [.strV "Hello World"]
              pure ()
            | _ => execMainLoop cf env ks2
          else execMainLoop cf env ks2
        | _ => execMainLoop cf env ks2) from rfl]
    rw [hk]
    simp only [exceptBind_ok]
    have hmm : hasMainMethod st = true := by simp [hasMainMethod, hmain]
    simp only [hmm, if_true]
    rw [hmain]
    exact except_bind_unit _
  | cons k1 ks1' ih =>
    intro k ks2 st ns me mp mb hpre hk hmain
    rcases hpre k1 (List.mem_cons_self k1 ks1') with ⟨v, hv, hent⟩
    have hpre' : ∀ k' ∈ ks1', ∃ v, envGet env k' = .ok v ∧ isEntryClass v = false :=
      fun k' hk' => hpre k' (List.mem_cons_of_mem _ hk')
    rw [List.cons_append]
    rw [show execMainLoop cf env (k1 :: (ks1' ++ k :: ks2)) =
      (do
        let v ← envGet env k1
        match v with
        | .userClassV st _ =>
          if hasMainMethod st then
            match assocGet st "main" with
            | some (.userMethodV me mp mb) => do
              let _ ← callFunction cf (.userMethodV me mp mb) [.strV "Hello World"]
              pure ()
            | _ => execMainLoop cf env (ks1' ++ k :: ks2)
          else execMainLoop cf env (ks1' ++ k :: ks2)
        | _ => execMainLoop cf env (ks1' ++ k :: ks2)) from rfl]
    rw [hv]
    simp only [exceptBind_ok]
    cases v with
    | userClassV st1 ns1 =>
      have hmm : hasMainMethod st1 = false := by simpa [isEntryClass] using hent
      simp only [hmm, Bool.false_eq_true, if_false]
      exact ih k ks2 st ns me mp mb hpre' hk hmain
    | strV s => exact ih k ks2 st ns me mp mb hpre' hk hmain
    | numV q => exact ih k ks2 st ns me mp mb hpre' hk hmain
    | nullV => exact ih k ks2 st ns me mp mb hpre' hk hmain
    | hostNullV => exact ih k ks2 st ns me mp mb hpre' hk hmain
    | pkgV u => exact ih k ks2 st ns me mp mb hpre' hk hmain
    | internalClassV st1 ns1 => exact ih k ks2 st ns me mp mb hpre' hk hmain
    | classInstanceV u => exact ih k ks2 st ns me mp mb hpre' hk hmain
    | userClassInstanceV c u => exact ih k ks2 st ns me mp mb hpre' hk hmain
    | userMethodV e p b => exact ih k ks2 st ns me mp mb hpre' hk hmain
    | internalMethodV e p va im => exact ih k ks2 st ns me mp mb hpre' hk hmain

/-- Claim C3: the synthetic entry-point statement scans the environment's
bindings in key order; at the first binding that is a user-defined class
with a static user-defined `main`, it invokes that `main` with exactly the
single fixed greeting string `"Hello World"`; if no binding qualifies, it
fails with the no-entry-point error. -/
theorem executeMain_entry_scan :
    (∀ (cf : Nat) (env : Env),
      (∀ k ∈ envGetKeys env, ∀ v, envGet env k = .ok v → isEntryClass v = false) →
      execMain cf env = .error (.thrown "No main method found"))
    ∧ (∀ (cf : Nat) (env : Env) (ks1 : List String) (k : String) (ks2 : List String)
        (st ns : List (String × Value)) (me : Env)
        (mp : List (TypeDefinition × String)) (mb : List Statement),
      envGetKeys env = ks1 ++ k :: ks2 →
      (∀ k' ∈ ks1, ∀ v, envGet env k' = .ok v → isEntryClass v = false) →
      envGet env k = .ok (.userClassV st ns) →
      assocGet st "main" = some (.userMethodV me mp mb) →
      execMain cf env =
        Except.map (fun _ => ())
          (callFunction cf (.userMethodV me mp mb) [.strV "Hello World"])) := by
  constructor
  · intro cf env h
    refine execMainLoop_no_entry cf env (envGetKeys env) (fun k hk => ?_)
    rcases envGet_ok_of_mem_getKeys env k hk with ⟨v, hv⟩
    exact ⟨v, hv, h k hk v hv⟩
  · intro cf env ks1 k ks2 st ns me mp mb hkeys hpre hk hmain
    have hpre2 : ∀ k' ∈ ks1, ∃ v, envGet env k' = .ok v ∧ isEntryClass v = false := by
      intro k' hk'
      have hmem : k' ∈ envGetKeys env := by
        rw [hkeys]; exact List.mem_append_left _ hk'
      rcases envGet_ok_of_mem_getKeys env k' hmem with ⟨v, hv⟩
      exact ⟨v, hv, hpre k' hk' v hv⟩
    have := execMainLoop_found cf env ks1 k ks2 st ns me mp mb hpre2 hk hmain
    rw [execMain, hkeys]
    exact this

/-- Witness for C3 at a one-class environment whose `Main` has a static
user-defined `main`; the scan invokes it with the greeting string, and the
whole execution succeeds. -/
theorem executeMain_entry_scan_witness :
    execMain 2 (envSetValue emptyEnv "Main" (mkUserDefinedClass
        [.mk .publicM true dummyType (identTok "main") [(dummyType, identTok "args")] []]
        emptyEnv)) =
      Except.map (fun _ => ())
        (callFunction 2 (.userMethodV emptyEnv [(dummyType, "args")] []) [.strV "Hello World"])
    ∧ execMain 2 (envSetValue emptyEnv "Main" (mkUserDefinedClass
        [.mk .publicM true dummyType (identTok "main") [(dummyType, identTok "args")] []]
        emptyEnv)) = .ok () := by
  refine ⟨executeMain_entry_scan.2 2 _ [] "Main" []
    [("main", .userMethodV emptyEnv [(dummyType, "args")] [])] [] emptyEnv
    [(dummyType, "args")] [] rfl (by intro k' hk'; simp at hk') rfl rfl, rfl⟩

/-! ## C7 -/

/-- Counterexample to C7 as stated: `import a.*.b;` parses successfully
with the segment `b` following the `*` in the path. -/
theorem import_star_counterexample :
    parseStatement 20 [importTok, identTok "a", dotTok, starTok, dotTok, identTok "b", semiTok] 0 =
      .ok (.importS ["a", "*", "b"], 7) := rfl

/-- Claim C7 (amended): the parser builds an ordered dotted path of
identifier-or-`*` segments, and after any segment — a `*` included — it
continues exactly when a `.` follows; a `*` segment does not terminate the
parsed path (the wildcard only terminates the path during execution). -/
theorem import_star_nonterminating :
    (∀ (fuel : Nat) (toks : List Token) (i : Nat) (t t1 : Token),
      toks[i]? = some t → (t.type = .IDENTIFIER ∨ t.type = .STAR) →
      toks[i + 1]? = some t1 → t1.type = .DOT →
      importLoop (fuel + 1) toks i =
        Except.map (fun r => (t.lexeme :: r.1, r.2)) (importLoop fuel toks (i + 2)))
    ∧ (∀ (fuel : Nat) (toks : List Token) (i : Nat) (t t1 : Token),
      toks[i]? = some t → (t.type = .IDENTIFIER ∨ t.type = .STAR) →
      toks[i + 1]? = some t1 → t1.type ≠ .DOT →
      importLoop (fuel + 1) toks i = .ok ([t.lexeme], i + 1))
    ∧ parseImportStatement 20
        [importTok, identTok "a", dotTok, starTok, dotTok, identTok "b", semiTok] 0 =
      .ok (.importS ["a", "*", "b"], 7) := by
  have key : ∀ (fuel : Nat) (toks : List Token) (i : Nat) (t t1 : Token),
      toks[i]? = some t → (t.type = .IDENTIFIER ∨ t.type = .STAR) →
      toks[i + 1]? = some t1 →
      importLoop (fuel + 1) toks i =
        (if t1.type = .DOT then
          Except.map (fun r => (t.lexeme :: r.1, r.2)) (importLoop fuel toks (i + 2))
        else .ok ([t.lexeme], i + 1)) := by
    intro fuel toks i t t1 ht htype ht1
    have hi : i < toks.length := by
      by_contra hlt
      push_neg at hlt
      rw [List.getElem?_eq_none hlt] at ht
      exact Option.noConfusion ht
    have hi1 : i + 1 < toks.length := by
      by_contra hlt
      push_neg at hlt
      rw [List.getElem?_eq_none hlt] at ht1
      exact Option.noConfusion ht1
    have hmem : t.type ∈ [TokenType.IDENTIFIER, TokenType.STAR] := by
      rcases htype with h | h <;> simp [h]
    rw [show importLoop (fuel + 1) toks i =
      (if i < toks.length then do
        let (part, i1) ← expect toks i [.IDENTIFIER, .STAR]
        let hasDot ← isNext toks i1 .DOT
        if hasDot then do
          let (rest, i2) ← importLoop fuel toks (i1 + 1)
          pure (part.lexeme :: rest, i2)
        else pure ([part.lexeme], i1)
      else pure ([], i)) from rfl]
    rw [if_pos hi]
    rw [show expect toks i [.IDENTIFIER, .STAR] = .ok (t, i + 1) from by
      simp only [expect, ht]; rw [if_pos hmem]]
    simp only [exceptBind_ok]
    rw [show isNext toks (i + 1) .DOT = .ok (decide (t1.type = .DOT)) from by
      simp only [isNext, ht1]
      rw [if_neg (not_le.mpr hi1)]]
    simp only [exceptBind_ok]
    by_cases hd : t1.type = .DOT
    · rw [if_pos hd, if_pos (by simp [hd])]
      cases himp : importLoop fuel toks (i + 2) with
      | error e => rfl
      | ok r => rfl
    · rw [if_neg hd, if_neg (by simp [hd])]
      rfl
  refine ⟨?_, ?_, rfl⟩
  · intro fuel toks i t t1 ht htype ht1 hd
    rw [key fuel toks i t t1 ht htype ht1, if_pos hd]
  · intro fuel toks i t t1 ht htype ht1 hd
    rw [key fuel toks i t t1 ht htype ht1, if_neg hd]

/-- Witness for C7's amended theorem: a `*` segment followed by a dot
continues the loop, and a segment with no following dot ends it. -/
theorem import_star_nonterminating_witness :
    importLoop 5 [starTok, dotTok, identTok "b", semiTok] 0 =
      Except.map (fun r => ("*" :: r.1, r.2))
        (importLoop 4 [starTok, dotTok, identTok "b", semiTok] 2)
    ∧ importLoop 5 [identTok "b", semiTok] 0 = .ok (["b"], 1) := by
  exact ⟨import_star_nonterminating.1 4 [starTok, dotTok, identTok "b", semiTok] 0
      starTok dotTok rfl (Or.inr rfl) rfl rfl,
    import_star_nonterminating.2.1 4 [identTok "b", semiTok] 0
      (identTok "b") semiTok rfl (Or.inl rfl) rfl (by decide)⟩



/-! ## C6 -/

/-- Claim C6: multiplicative operators bind tighter than additive ones and
operators of equal precedence associate left-to-right; `2 + 3 * 4`
evaluates to Number(14). -/
theorem multiplicative_precedence :
    (parseExpressionStatement 19 [numTok "2.", plusTok, numTok "3.", starTok, numTok "4.", semiTok] 0 =
      .ok (.exprS (.binaryE (.literalE (.numL (jsInt 2)))
        (.binaryE (.literalE (.numL (jsInt 3))) (.literalE (.numL (jsInt 4))) .STAR) .PLUS), 6))
    ∧ (evaluate 3 (.binaryE (.literalE (.numL (jsInt 2)))
        (.binaryE (.literalE (.numL (jsInt 3))) (.literalE (.numL (jsInt 4))) .STAR) .PLUS) emptyEnv =
        .ok (.numV (jsInt 14), emptyEnv))
    ∧ (∀ a b c : String,
      parseExpression 16 [numTok a, plusTok, numTok b, starTok, numTok c, semiTok] 0 =
        .ok (.binaryE (.literalE (.numL (parseFloatNum a)))
          (.binaryE (.literalE (.numL (parseFloatNum b)))
            (.literalE (.numL (parseFloatNum c))) .STAR) .PLUS, 5))
    ∧ (∀ a b c : String,
      parseExpression 16 [numTok a, starTok, numTok b, plusTok, numTok c, semiTok] 0 =
        .ok (.binaryE (.binaryE (.literalE (.numL (parseFloatNum a)))
            (.literalE (.numL (parseFloatNum b))) .STAR)
          (.literalE (.numL (parseFloatNum c))) .PLUS, 5))
    ∧ (∀ a b c : String,
      parseExpression 16 [numTok a, plusTok, numTok b, minusTok, numTok c, semiTok] 0 =
        .ok (.binaryE (.binaryE (.literalE (.numL (parseFloatNum a)))
            (.literalE (.numL (parseFloatNum b))) .PLUS)
          (.literalE (.numL (parseFloatNum c))) .MINUS, 5))
    ∧ (∀ a b c : String,
      parseExpression 16 [numTok a, starTok, numTok b, slashTok, numTok c, semiTok] 0 =
        .ok (.binaryE (.binaryE (.literalE (.numL (parseFloatNum a)))
            (.literalE (.numL (parseFloatNum b))) .STAR)
          (.literalE (.numL (parseFloatNum c))) .SLASH, 5)) :=
  ⟨rfl, rfl, fun _ _ _ => rfl, fun _ _ _ => rfl, fun _ _ _ => rfl, fun _ _ _ => rfl⟩

/-! ## C8 -/

/-- Counterexample to C8 as stated: the argument list `a b` — two
expressions with no comma between them — is accepted by the parser, not
rejected. -/
theorem arglist_no_comma_counterexample :
    parseArgumentList 16 [identTok "a", identTok "b", rparenTok] 0 =
      .ok ([.identifierE (identTok "a"), .identifierE (identTok "b")], 2) := rfl

/-- Claim C8 (amended): in a non-empty argument list the comma between
consecutive argument expressions is optional — after an argument the loop
skips a `,` if present, stops at `)`, and otherwise simply parses the next
expression — while a trailing comma before `)` is still rejected, with the
expression-parse error. -/
theorem arglist_optional_comma :
    (∀ a b : String,
      parseArgumentList 16 [identTok a, commaTok, identTok b, rparenTok] 0 =
        .ok ([.identifierE (identTok a), .identifierE (identTok b)], 3))
    ∧ (∀ a b : String,
      parseArgumentList 16 [identTok a, identTok b, rparenTok] 0 =
        .ok ([.identifierE (identTok a), .identifierE (identTok b)], 2))
    ∧ (∀ a : String,
      parseArgumentList 16 [identTok a, commaTok, rparenTok] 0 =
        .error (.thrown "Was unable to build expression")) :=
  ⟨fun _ _ => rfl, fun _ _ => rfl, fun _ => rfl⟩

end ProgLang
